import Mathlib

set_option exponentiation.threshold 5000
set_option maxRecDepth 100000

/-!
Residual functors of the tracker (`include/main_engine/tracker/residual.h`)

A shallow embedding of the residual functors and of the iteration callback.

* The scalar type `T` of the templated `operator()` is a type parameter `S`;
  every definition asks only for the operations the source uses on it
  (`-`, `*`, `/`, comparisons, ...), so the definitions run on `ℚ`.
  Structural theorems hold for every such `S`. Where a property depends on the
  arithmetic of `double` (rounding, overflow, NaN), `S` is `Double`, a model of
  IEEE-754 binary64 with round to nearest, ties to even.
* A pointer argument (`const T* const`, `T*`, `double*`) is the memory seen
  through it: a map from offsets to scalars. A functor call takes the
  residual buffer as it is before the call and returns it as it is afterwards.
* Loops `for (int i = 0; i < n; ++i)` are `forLoop n`.
-/

namespace Pangaea

/-- Memory seen through a pointer to scalars: the value stored at each offset. -/
abbrev Ptr (S : Type) := Nat → S

/-- The assignment `p[i] = x`. -/
def store {S : Type} (p : Ptr S) (i : Nat) (x : S) : Ptr S :=
  fun j => if j = i then x else p j

/-- The loop `for (int i = 0; i < n; ++i) body` run on a state `s`; the body
receives the counter together with the loop condition `i < n`. -/
def forLoop {σ : Type} : (n : Nat) → ((i : Nat) → i < n → σ → σ) → σ → σ
  | 0, _, s => s
  | n + 1, body, s =>
    body n (Nat.lt_succ_self n) (forLoop n (fun i h => body i (Nat.lt_succ_of_lt h)) s)

/-- An array of three scalars `{a, b, c}` seen through a pointer. -/
def vec3 {S : Type} (a b c : S) : Ptr S :=
  fun i => if i = 0 then a else if i = 1 then b else c

/-! ## The arithmetic of `double` -/

/-- A value of the C++ type `double` (IEEE-754 binary64): the finite value
`(-1)^neg * m * 2^e`, an infinity, or a NaN (its sign and payload are not
kept). The finite doubles are the values with `m < 2^53`, `-1074 ≤ e ≤ 971`
and `e = -1074` whenever `m < 2^52` (see `Double.isFinite`); the operations
below return them in this form. Arithmetic rounds to nearest, ties to even. -/
inductive Double where
  | fin (neg : Bool) (m : Nat) (e : Int)
  | inf (neg : Bool)
  | nan
  deriving DecidableEq, Repr

namespace Double

/-- The position of the leading bit of `a` (0 for `a ≤ 1`), found by bisection;
exact for `a < 2^4096`, which covers every intermediate value of the
operations on doubles. -/
def ilog2 (a : Nat) : Nat :=
  [2048, 1024, 512, 256, 128, 64, 32, 16, 8, 4, 2, 1].foldl
    (fun acc s => if 2 ^ (acc + s) ≤ a then acc + s else acc) 0

/-- The integer square root of `a`, found bit by bit; exact for `a < 2^128`. -/
def isqrt (a : Nat) : Nat :=
  (List.range 64).foldl
    (fun r i => if (r + 2 ^ (63 - i)) * (r + 2 ^ (63 - i)) ≤ a then r + 2 ^ (63 - i) else r) 0

/-- The double nearest to the exact value `(-1)^neg * a * 2^E`, ties to the
even mantissa; values beyond the largest finite double become an infinity. -/
def round (neg : Bool) (a : Nat) (E : Int) : Double :=
  if a = 0 then fin neg 0 (-1074)
  else
    let e := max (E + ((ilog2 a + 1 : Nat) : Int) - 53) (-1074)
    if e ≤ E then
      if e > 971 then inf neg else fin neg (a * 2 ^ (E - e).toNat) e
    else
      let k := (e - E).toNat
      let q := a / 2 ^ k
      let r := a % 2 ^ k
      let q := if 2 ^ (k - 1) < r ∨ (r = 2 ^ (k - 1) ∧ q % 2 = 1) then q + 1 else q
      let m := if q = 2 ^ 53 then 2 ^ 52 else q
      let e := if q = 2 ^ 53 then e + 1 else e
      if e > 971 then inf neg else fin neg m e

/-- The integer `(-1)^neg * a`. -/
def signed (neg : Bool) (a : Nat) : Int :=
  if neg then -(a : Int) else (a : Int)

/-- Unary minus. -/
def neg : Double → Double
  | fin s m e => fin (!s) m e
  | inf s => inf (!s)
  | nan => nan

/-- Addition. -/
def add : Double → Double → Double
  | nan, _ => nan
  | _, nan => nan
  | inf s, inf t => if s = t then inf s else nan
  | inf s, fin _ _ _ => inf s
  | fin _ _ _, inf t => inf t
  | fin s m e, fin t n f =>
    let E := min e f
    let z := signed s (m * 2 ^ (e - E).toNat) + signed t (n * 2 ^ (f - E).toNat)
    if z = 0 then fin (s && t) 0 (-1074) else round (decide (z < 0)) z.natAbs E

/-- Subtraction. -/
def sub (x y : Double) : Double := add x (neg y)

/-- Multiplication. -/
def mul : Double → Double → Double
  | nan, _ => nan
  | _, nan => nan
  | inf s, inf t => inf (xor s t)
  | inf s, fin t n _ => if n = 0 then nan else inf (xor s t)
  | fin s m _, inf t => if m = 0 then nan else inf (xor s t)
  | fin s m e, fin t n f => round (xor s t) (m * n) (e + f)

/-- Division. The quotient is taken with at least 55 leading bits and a sticky
bit for the remainder, then rounded. -/
def div : Double → Double → Double
  | nan, _ => nan
  | _, nan => nan
  | inf _, inf _ => nan
  | inf s, fin t _ _ => inf (xor s t)
  | fin s _ _, inf t => fin (xor s t) 0 (-1074)
  | fin s m e, fin t n f =>
    if n = 0 then (if m = 0 then nan else inf (xor s t))
    else
      let p := 56 + ilog2 n
      let q := m * 2 ^ p / n
      let sticky := if m * 2 ^ p % n = 0 then 0 else 1
      round (xor s t) (2 * q + sticky) (e - f - (p : Int) - 1)

/-- The square root `sqrt`. The root is taken with at least 55 leading bits
and a sticky bit for the remainder, then rounded. -/
def sqrt : Double → Double
  | nan => nan
  | inf s => if s then nan else inf false
  | fin s m e =>
    if m = 0 then fin s 0 (-1074)
    else if s then nan
    else
      let p := 110 - ilog2 m + (if (e - ((110 - ilog2 m : Nat) : Int)) % 2 = 0 then 0 else 1)
      let a := m * 2 ^ p
      let r := isqrt a
      let sticky := if r * r = a then 0 else 1
      round false (2 * r + sticky) ((e - (p : Int)) / 2 - 1)

/-- The comparison `x < y`. -/
def lt : Double → Double → Bool
  | nan, _ => false
  | _, nan => false
  | inf s, inf t => s && !t
  | inf s, fin _ _ _ => s
  | fin _ _ _, inf t => !t
  | fin s m e, fin t n f =>
    decide (signed s (m * 2 ^ (e - min e f).toNat) < signed t (n * 2 ^ (f - min e f).toNat))

/-- The comparison `x == y`: equal values; the two zeros are equal and a NaN
equals nothing. -/
def eq : Double → Double → Bool
  | nan, _ => false
  | _, nan => false
  | inf s, inf t => s == t
  | inf _, fin _ _ _ => false
  | fin _ _ _, inf _ => false
  | fin s m e, fin t n f =>
    decide (signed s (m * 2 ^ (e - min e f).toNat) = signed t (n * 2 ^ (f - min e f).toNat))

/-- The comparison `x <= y`. -/
def le (x y : Double) : Bool := lt x y || eq x y

/-- The conversion of an `int` or `unsigned` to `double`. -/
def ofInt (n : Int) : Double := round (decide (n < 0)) n.natAbs 0

/-- The double nearest to `n / 10`: the value of the literals `0.1`, `0.2`,
`0.3` for `n` = 1, 2, 3. -/
def ofTenths (n : Int) : Double := div (ofInt n) (ofInt 10)

/-- The finite doubles. -/
def isFinite : Double → Bool
  | fin _ m e => decide (m < 2 ^ 53 ∧ -1074 ≤ e ∧ e ≤ 971 ∧ (m < 2 ^ 52 → e = -1074))
  | _ => false

/-- The doubles `+0.0` and `-0.0`. -/
def isZero : Double → Bool
  | fin _ m _ => decide (m = 0)
  | _ => false

/-- The NaNs. -/
def isNaN : Double → Bool
  | nan => true
  | _ => false

/-- The exact value of a finite double as a rational number (0 for an
infinity or a NaN). -/
def toRat : Double → ℚ
  | fin s m e => (signed s m : ℚ) * (2 : ℚ) ^ e
  | _ => 0

instance : Zero Double := ⟨fin false 0 (-1074)⟩
instance : One Double := ⟨fin false (2 ^ 52) (-52)⟩
instance : Neg Double := ⟨neg⟩
instance : Add Double := ⟨add⟩
instance : Sub Double := ⟨sub⟩
instance : Mul Double := ⟨mul⟩
instance : Div Double := ⟨div⟩
instance : NatCast Double := ⟨fun n => ofInt n⟩
instance : IntCast Double := ⟨ofInt⟩
instance : LT Double := ⟨fun x y => lt x y = true⟩
instance : LE Double := ⟨fun x y => le x y = true⟩
instance : DecidableRel (fun a b : Double => a < b) :=
  fun x y => inferInstanceAs (Decidable (lt x y = true))
instance : DecidableRel (fun a b : Double => a ≤ b) :=
  fun x y => inferInstanceAs (Decidable (le x y = true))

end Double

/-! ## Output streams -/

/-- One item inserted into a `std::ostream` with `<<`: a string literal, an
`int`, a scalar, or `std::endl`. -/
inductive Tok (S : Type) where
  | str (s : String)
  | int (n : Int)
  | num (x : S)
  | endl
  deriving DecidableEq, Repr

/-- A `std::ostream`: the items written to it so far, oldest first. -/
abbrev ostream (S : Type) := List (Tok S)

/-! ## Enumerations and the residual-count table -/

/-- The enumeration `baType`. -/
inductive baType where
  | BA_MOT
  | BA_STR
  | BA_MOTSTR
  deriving DecidableEq, Repr

/-- The enumeration `dataTermErrorType`; its last enumerator,
`NUM_DATA_TERM_ERROR`, is the number of error types and is kept apart. -/
inductive dataTermErrorType where
  | PE_INTENSITY
  | PE_COLOR
  | PE_DEPTH
  | PE_DEPTH_PLANE
  deriving DecidableEq, Repr

/-- The enumerator `NUM_DATA_TERM_ERROR`. -/
def NUM_DATA_TERM_ERROR : Nat := 4

/-- The table `PE_RESIDUAL_NUM_ARRAY[NUM_DATA_TERM_ERROR] = {1,3,3,1}`, indexed
by the error type. -/
def PE_RESIDUAL_NUM_ARRAY : dataTermErrorType → Nat
  | .PE_INTENSITY => 1
  | .PE_COLOR => 3
  | .PE_DEPTH => 3
  | .PE_DEPTH_PLANE => 1

/-! ## External collaborators -/

/-- Modelled from the spec: `CameraInfo`, declared outside the sources at hand:
width, height, intrinsic matrix and its inverse, orthographic flag. -/
structure CameraInfo (S : Type) where
  isOrthoCamera : Bool
  KK : Nat → Nat → S
  invKK : Nat → Nat → S
  width : Int
  height : Int

/-- Modelled from the spec: `ImageLevel`, declared outside the sources at hand:
one pyramid level with its intensity, colour, depth and normal images and their
spatial gradients. `Img` is the image type. -/
structure ImageLevel (Img : Type) where
  grayImage : Img
  gradXImage : Img
  gradYImage : Img
  colorImageSplit : Nat → Img
  colorImageGradXSplit : Nat → Img
  colorImageGradYSplit : Nat → Img
  depthImage : Img
  depthGradXImage : Img
  depthGradYImage : Img
  depthNormalImageSplit : Nat → Img
  depthNormalImageGradXSplit : Nat → Img
  depthNormalImageGradYSplit : Nat → Img

/-- The functions of `<cmath>` that the rotation primitive calls. -/
structure Libm (S : Type) where
  sqrt : S → S
  cos : S → S
  sin : S → S

/-- Modelled from the spec: the external axis-angle rotation primitive
`ceres::AngleAxisRotatePoint(angle_axis, pt, result)` of `ceres/rotation.h`,
returning the array `result`. Away from zero it is the Rodrigues formula; for
a squared angle of at most `std::numeric_limits<double>::epsilon()` (2⁻⁵²) it
is the first-order expansion `pt + angle_axis × pt`. -/
def AngleAxisRotatePoint {S : Type} [Add S] [Sub S] [Mul S] [Div S] [One S] [NatCast S]
    [LT S] [DecidableRel (fun a b : S => a < b)] (m : Libm S)
    (angle_axis pt : Ptr S) : Ptr S :=
  let theta2 := angle_axis 0 * angle_axis 0 + angle_axis 1 * angle_axis 1 +
    angle_axis 2 * angle_axis 2
  if theta2 > (1 : S) / ((2 ^ 52 : Nat) : S) then
    let theta := m.sqrt theta2
    let costheta := m.cos theta
    let sintheta := m.sin theta
    let theta_inverse := (1 : S) / theta
    let w : Ptr S := vec3 (angle_axis 0 * theta_inverse) (angle_axis 1 * theta_inverse)
      (angle_axis 2 * theta_inverse)
    let w_cross_pt : Ptr S := vec3 (w 1 * pt 2 - w 2 * pt 1) (w 2 * pt 0 - w 0 * pt 2)
      (w 0 * pt 1 - w 1 * pt 0)
    let tmp := (w 0 * pt 0 + w 1 * pt 1 + w 2 * pt 2) * ((1 : S) - costheta)
    vec3 (pt 0 * costheta + w_cross_pt 0 * sintheta + w 0 * tmp)
      (pt 1 * costheta + w_cross_pt 1 * sintheta + w 1 * tmp)
      (pt 2 * costheta + w_cross_pt 2 * sintheta + w 2 * tmp)
  else
    let w_cross_pt : Ptr S := vec3 (angle_axis 1 * pt 2 - angle_axis 2 * pt 1)
      (angle_axis 2 * pt 0 - angle_axis 0 * pt 2)
      (angle_axis 0 * pt 1 - angle_axis 1 * pt 0)
    vec3 (pt 0 + w_cross_pt 0) (pt 1 + w_cross_pt 1) (pt 2 + w_cross_pt 2)

/-! ## ResidualImageProjection -/

/-- Data members of `class ResidualImageProjection`; `Img` is the image type of
the frame. -/
structure ResidualImageProjection (S Img : Type) where
  weight : S
  pValue : Ptr S
  pCamera : CameraInfo S
  pFrame : ImageLevel Img
  PE_TYPE : dataTermErrorType

/-- The array `p` of `ResidualImageProjection::operator()`: the point rotated
by the external primitive `rotate`, then translated. -/
def ResidualImageProjection.p {S : Type} [Add S] (rotate : Ptr S → Ptr S → Ptr S)
    (rotation translation xyz : Ptr S) : Ptr S :=
  let p := rotate rotation xyz
  let p := store p 0 (p 0 + translation 0)
  let p := store p 1 (p 1 + translation 1)
  let p := store p 2 (p 2 + translation 2)
  p

/-- The local `transformed_c` of `ResidualImageProjection::operator()`. -/
def ResidualImageProjection.transformed_c {S Img : Type} [Add S] [Mul S] [Div S]
    (self : ResidualImageProjection S Img) (p : Ptr S) : S :=
  if self.pCamera.isOrthoCamera then p 0
  else ((p 0 * self.pCamera.KK 0 0) / p 2) + self.pCamera.KK 0 2

/-- The local `transformed_r` of `ResidualImageProjection::operator()`. -/
def ResidualImageProjection.transformed_r {S Img : Type} [Add S] [Mul S] [Div S]
    (self : ResidualImageProjection S Img) (p : Ptr S) : S :=
  if self.pCamera.isOrthoCamera then p 1
  else ((p 1 * self.pCamera.KK 1 1) / p 2) + self.pCamera.KK 1 2

/-- The call operator `ResidualImageProjection::operator()`: the `bool` result and the residual
buffer after the call. `rotate` is `ceres::AngleAxisRotatePoint` and `sample`
is `SampleWithDerivative` (image, x-gradient, y-gradient, column, row), both
external. -/
def ResidualImageProjection.operator {S Img : Type} [Zero S] [Add S] [Sub S] [Mul S] [Div S]
    [IntCast S] [LE S] [LT S] [DecidableRel (fun a b : S => a ≤ b)]
    [DecidableRel (fun a b : S => a < b)]
    (rotate : Ptr S → Ptr S → Ptr S) (sample : Img → Img → Img → S → S → S)
    (self : ResidualImageProjection S Img)
    (rotation translation xyz : Ptr S) (residuals : Ptr S) : Bool × Ptr S :=
  let residual_num := PE_RESIDUAL_NUM_ARRAY self.PE_TYPE
  let residuals := forLoop residual_num (fun i _ residuals => store residuals i 0) residuals
  let p := ResidualImageProjection.p rotate rotation translation xyz
  let transformed_c := self.transformed_c p
  let transformed_r := self.transformed_r p
  let residuals :=
    if transformed_r ≥ 0 ∧ transformed_r < (self.pCamera.height : S) ∧
        transformed_c ≥ 0 ∧ transformed_c < (self.pCamera.width : S) then
      match self.PE_TYPE with
      | .PE_INTENSITY =>
        let templateValue := self.pValue 0
        let currentValue := sample self.pFrame.grayImage self.pFrame.gradXImage
          self.pFrame.gradYImage transformed_c transformed_r
        store residuals 0 (self.weight * (currentValue - templateValue))
      | .PE_COLOR =>
        forLoop 3 (fun i _ residuals =>
          let templateValue := self.pValue i
          let currentValue := sample (self.pFrame.colorImageSplit i)
            (self.pFrame.colorImageGradXSplit i) (self.pFrame.colorImageGradYSplit i)
            transformed_c transformed_r
          store residuals i (self.weight * (currentValue - templateValue))) residuals
      | .PE_DEPTH =>
        let templateValue := xyz 2
        let currentValue := sample self.pFrame.depthImage self.pFrame.depthGradXImage
          self.pFrame.depthGradYImage transformed_c transformed_r
        if self.pCamera.isOrthoCamera then
          let residuals := store residuals 0 (self.weight * (currentValue - templateValue))
          let residuals := store residuals 1 0
          let residuals := store residuals 2 0
          residuals
        else
          let residuals := store residuals 2 (currentValue - templateValue)
          let residuals := store residuals 0 (residuals 2 *
            (self.pCamera.invKK 0 0 * transformed_c + self.pCamera.invKK 0 2))
          let residuals := store residuals 1 (residuals 2 *
            (self.pCamera.invKK 1 1 * transformed_r + self.pCamera.invKK 1 2))
          residuals
      | .PE_DEPTH_PLANE =>
        let currentValue := sample self.pFrame.depthImage self.pFrame.depthGradXImage
          self.pFrame.depthGradYImage transformed_c transformed_r
        let back_projection_2 := currentValue
        let back_projection_0 := back_projection_2 *
          (self.pCamera.invKK 0 0 * transformed_c + self.pCamera.invKK 0 2)
        let back_projection_1 := back_projection_2 *
          (self.pCamera.invKK 1 1 * transformed_r + self.pCamera.invKK 1 2)
        let normals_at_bp : Ptr S := fun i => sample (self.pFrame.depthNormalImageSplit i)
          (self.pFrame.depthNormalImageGradXSplit i) (self.pFrame.depthNormalImageGradYSplit i)
          transformed_c transformed_r
        store residuals 0 (normals_at_bp 0 * (xyz 0 - back_projection_0) +
          normals_at_bp 1 * (xyz 1 - back_projection_1) +
          normals_at_bp 2 * (xyz 2 - back_projection_2))
    else residuals
  (true, residuals)

/-! ## ResidualTV and ResidualRotTV -/

/-- Data members of `class ResidualTV`. -/
structure ResidualTV (S : Type) where
  weight : S
  pVertex : Ptr S
  pNeighbor : Ptr S

/-- The call operator `ResidualTV::operator()`: the `bool` result and the residual buffer after
the call. -/
def ResidualTV.operator {S : Type} [Sub S] [Mul S] (self : ResidualTV S)
    (pCurrentVertex pCurrentNeighbor : Ptr S) (residuals : Ptr S) : Bool × Ptr S :=
  let residuals := forLoop 3 (fun i _ residuals =>
    store residuals i (self.weight * ((self.pVertex i - self.pNeighbor i) -
      (pCurrentVertex i - pCurrentNeighbor i)))) residuals
  (true, residuals)

/-- Data members of `class ResidualRotTV`. -/
structure ResidualRotTV (S : Type) where
  weight : S

/-- The call operator `ResidualRotTV::operator()`. -/
def ResidualRotTV.operator {S : Type} [Sub S] [Mul S] (self : ResidualRotTV S)
    (pCurrentRot pCurrentNeighbor : Ptr S) (residuals : Ptr S) : Bool × Ptr S :=
  let residuals := forLoop 3 (fun i _ residuals =>
    store residuals i (self.weight * (pCurrentRot i - pCurrentNeighbor i))) residuals
  (true, residuals)

/-! ## ResidualINEXTENT -/

/-- Data members of `class ResidualINEXTENT`. -/
structure ResidualINEXTENT (S : Type) where
  weight : S
  pVertex : Ptr S
  pNeighbor : Ptr S

/-- The call operator `ResidualINEXTENT::operator()`; `sqrt` is the square root of `<cmath>`. The
local arrays `diff` and `diffref` are the maps filled by the first loop. -/
def ResidualINEXTENT.operator {S : Type} [Add S] [Sub S] [Mul S] (sqrt : S → S)
    (self : ResidualINEXTENT S)
    (pCurrentVertex pCurrentNeighbor : Ptr S) (residuals : Ptr S) : Bool × Ptr S :=
  let diff : Ptr S := fun i => pCurrentVertex i - pCurrentNeighbor i
  let diffref : Ptr S := fun i => self.pVertex i - self.pNeighbor i
  let length := sqrt (diff 0 * diff 0 + diff 1 * diff 1 + diff 2 * diff 2)
  let lengthref := sqrt (diffref 0 * diffref 0 + diffref 1 * diffref 1 +
    diffref 2 * diffref 2)
  let residuals := store residuals 0 (self.weight * (lengthref - length))
  (true, residuals)

/-! ## ResidualARAP -/

/-- Data members of `class ResidualARAP`. -/
structure ResidualARAP (S : Type) where
  weight : S
  pVertex : Ptr S
  pNeighbor : Ptr S

/-- The call operator `ResidualARAP::operator()`; `rotate` is the external primitive
`ceres::AngleAxisRotatePoint`. The local arrays `templateDiff` and
`currentDiff` are the maps filled by the loop. -/
def ResidualARAP.operator {S : Type} [Sub S] [Mul S] (rotate : Ptr S → Ptr S → Ptr S)
    (self : ResidualARAP S)
    (pCurrentVertex pCurrentNeighbor pRotVertex : Ptr S) (residuals : Ptr S) :
    Bool × Ptr S :=
  let templateDiff : Ptr S := fun i => self.pVertex i - self.pNeighbor i
  let currentDiff : Ptr S := fun i => pCurrentVertex i - pCurrentNeighbor i
  let rotTemplateDiff := rotate pRotVertex templateDiff
  let residuals := store residuals 0 (self.weight * (currentDiff 0 - rotTemplateDiff 0))
  let residuals := store residuals 1 (self.weight * (currentDiff 1 - rotTemplateDiff 1))
  let residuals := store residuals 2 (self.weight * (currentDiff 2 - rotTemplateDiff 2))
  (true, residuals)

/-! ## ResidualDeform -/

/-- Data members of `class ResidualDeform`. -/
structure ResidualDeform (S : Type) where
  weight : S
  pVertex : Ptr S

/-- The call operator `ResidualDeform::operator()`. -/
def ResidualDeform.operator {S : Type} [Sub S] [Mul S] (self : ResidualDeform S)
    (pCurrentVertex : Ptr S) (residuals : Ptr S) : Bool × Ptr S :=
  let residuals := forLoop 3 (fun i _ residuals =>
    store residuals i (self.weight * (pCurrentVertex i - self.pVertex i))) residuals
  (true, residuals)

/-! ## ResidualTemporalMotion -/

/-- Data members of `class ResidualTemporalMotion`. -/
structure ResidualTemporalMotion (S : Type) where
  rotWeight : S
  transWeight : S
  pPrevRot : Ptr S
  pPrevTrans : Ptr S

/-- The call operator `ResidualTemporalMotion::operator()`: the `bool` result, the residual buffer
after the call, and `cout` after the call. -/
def ResidualTemporalMotion.operator {S : Type} [Sub S] [Mul S]
    (self : ResidualTemporalMotion S)
    (pRot pTrans : Ptr S) (residuals : Ptr S) (cout : ostream S) :
    Bool × Ptr S × ostream S :=
  let residuals := store residuals 0 (self.rotWeight * (pRot 0 - self.pPrevRot 0))
  let residuals := store residuals 1 (self.rotWeight * (pRot 1 - self.pPrevRot 1))
  let residuals := store residuals 2 (self.rotWeight * (pRot 2 - self.pPrevRot 2))
  let residuals := store residuals 3 (self.transWeight * (pTrans 0 - self.pPrevTrans 0))
  let residuals := store residuals 4 (self.transWeight * (pTrans 1 - self.pPrevTrans 1))
  let residuals := store residuals 5 (self.transWeight * (pTrans 2 - self.pPrevTrans 2))
  let cout := cout ++ [Tok.str "inside printing started", Tok.endl]
  let cout := cout ++ [Tok.str "transWeight: ", Tok.num self.transWeight, Tok.endl]
  let cout := cout ++ [Tok.str "rotWeight: ", Tok.num self.rotWeight, Tok.endl]
  let cout := cout ++ [Tok.num (pRot 0), Tok.str " ", Tok.num (pRot 1), Tok.str " ",
    Tok.num (pRot 2), Tok.endl]
  let cout := cout ++ [Tok.num (pTrans 0), Tok.str " ", Tok.num (pTrans 1), Tok.str " ",
    Tok.num (pTrans 2), Tok.endl]
  let cout := cout ++ [Tok.endl]
  let cout := cout ++ [Tok.num (self.pPrevRot 0), Tok.str " ", Tok.num (self.pPrevRot 1),
    Tok.str " ", Tok.num (self.pPrevRot 2), Tok.endl]
  let cout := cout ++ [Tok.num (self.pPrevTrans 0), Tok.str " ", Tok.num (self.pPrevTrans 1),
    Tok.str " ", Tok.num (self.pPrevTrans 2), Tok.endl]
  let cout := cout ++ [Tok.str "inside printing finished", Tok.endl]
  (true, residuals, cout)

/-! ## EnergyCallback -/

/-- The values of `ceres::CallbackReturnType`, which the solver reads from an
iteration callback. -/
inductive CallbackReturnType where
  | SOLVER_CONTINUE
  | SOLVER_ABORT
  | SOLVER_TERMINATE_SUCCESSFULLY
  deriving DecidableEq, Repr

/-- The field of `ceres::IterationSummary` that the callback reads. -/
structure IterationSummary (S : Type) where
  cost : S

/-- Data member of `class EnergyCallback`: the `std::vector<double>`
`m_EnergyRecord`, as the list of its elements. -/
structure EnergyCallback (S : Type) where
  m_EnergyRecord : List S

/-- The constructor `EnergyCallback()`: the record starts empty. -/
def EnergyCallback.new {S : Type} : EnergyCallback S :=
  { m_EnergyRecord := [] }

/-- The call operator `EnergyCallback::operator()`: the value returned to the solver and the
callback object after the call. -/
def EnergyCallback.operator {S : Type} (self : EnergyCallback S)
    (summary : IterationSummary S) : CallbackReturnType × EnergyCallback S :=
  let self := { self with m_EnergyRecord := self.m_EnergyRecord ++ [summary.cost] }
  (CallbackReturnType.SOLVER_CONTINUE, self)

/-- The member function `EnergyCallback::PrintEnergy`: the stream `output` after the call. The loop
counter is taken exactly (records stay below the range of `int`). -/
def EnergyCallback.PrintEnergy {S : Type} (self : EnergyCallback S)
    (output : ostream S) : ostream S :=
  let output := output ++ [Tok.str "Energy Started", Tok.endl]
  let output := forLoop self.m_EnergyRecord.length (fun i h output =>
    output ++ [Tok.int ((i : Int) + 1), Tok.str " ", Tok.num (self.m_EnergyRecord.get ⟨i, h⟩),
      Tok.endl]) output
  let output := output ++ [Tok.str "Energy Ended", Tok.endl]
  output

/-- The member function `EnergyCallback::Reset`: the callback object after the call. -/
def EnergyCallback.Reset {S : Type} (self : EnergyCallback S) : EnergyCallback S :=
  { self with m_EnergyRecord := [] }

/-- The callback object after the solver has invoked it once for each cost of
`costs`, in order. -/
def EnergyCallback.invoke {S : Type} (self : EnergyCallback S) (costs : List S) :
    EnergyCallback S :=
  costs.foldl (fun cb c => (cb.operator { cost := c }).2) self

/-- The cost lines the specification expects `PrintEnergy` to write for the
recorded costs: for the `k`-th cost (counted from 1) the index `k`, a blank,
the cost, and the end of the line. -/
def costLines {S : Type} (costs : List S) : List (ostream S) :=
  costs.enum.map (fun p => [Tok.int ((p.1 : Int) + 1), Tok.str " ", Tok.num p.2, Tok.endl])

/-! ## Concrete inputs used to exercise the functors -/

/-- A frame whose images carry no data (the sampler of the examples computes
its value from the coordinates alone). -/
def unitFrame : ImageLevel Unit :=
  { grayImage := (), gradXImage := (), gradYImage := (),
    colorImageSplit := fun _ => (), colorImageGradXSplit := fun _ => (),
    colorImageGradYSplit := fun _ => (),
    depthImage := (), depthGradXImage := (), depthGradYImage := (),
    depthNormalImageSplit := fun _ => (), depthNormalImageGradXSplit := fun _ => (),
    depthNormalImageGradYSplit := fun _ => () }

/-- A perspective camera of 4 by 4 pixels with unit focal lengths and the
principal point at the origin. -/
def pinhole4 (S : Type) [Zero S] [One S] : CameraInfo S :=
  { isOrthoCamera := false,
    KK := fun i j => if i = j then 1 else 0,
    invKK := fun i j => if i = j then 1 else 0,
    width := 4, height := 4 }

/-! ## Lemmas on stores and loops -/

theorem store_same {S : Type} (p : Ptr S) (i : Nat) (x : S) : store p i x i = x := by
  simp [store]

theorem store_other {S : Type} (p : Ptr S) (i j : Nat) (x : S) (h : j ≠ i) :
    store p i x j = p j := by
  simp [store, h]

/-- A loop that stores a value computed from the counter at the counter's own
offset leaves that value at every offset below the bound, and leaves the
offsets from the bound on as they were. -/
theorem forLoop_store {S : Type} (f : Nat → S) (n : Nat) (p : Ptr S) (j : Nat) :
    forLoop n (fun i _ q => store q i (f i)) p j = if j < n then f j else p j := by
  induction n with
  | zero => simp [forLoop]
  | succ n ih =>
    simp only [forLoop]
    by_cases hj : j = n
    · subst hj
      simp [store_same]
    · rw [store_other _ _ _ _ hj, ih]
      by_cases hlt : j < n
      · simp [hlt, Nat.lt_succ_of_lt hlt]
      · have : ¬ j < n + 1 := by omega
        simp [hlt, this]

/-! ## Lemmas on the arithmetic of `double` -/

namespace Double

/-- Well-known results of double arithmetic, evaluated in the model:
0.1 + 0.2 is 0.30000000000000004, 1/3 and sqrt 2 round as on the hardware,
2^53 + 1 is not representable, the largest double doubled overflows, half the
smallest positive double is 0 while three quarters of it rounds back up, and
the invalid operations give a NaN, which equals nothing, whereas -0.0 equals
0.0. -/
theorem arithmetic_examples :
    ofTenths 1 + ofTenths 2 = fin false 5404319552844596 (-54) ∧
    ofTenths 1 = fin false 7205759403792794 (-56) ∧
    (1 : Double) / ofInt 3 = fin false 6004799503160661 (-54) ∧
    sqrt (ofInt 2) = fin false 6369051672525773 (-52) ∧
    ofInt (2 ^ 53 + 1) = fin false (2 ^ 52) 1 ∧
    fin false (2 ^ 53 - 1) 971 + fin false (2 ^ 53 - 1) 971 = inf false ∧
    ((1 : Double) / ofInt 2) * fin false 1 (-1074) = 0 ∧
    ((ofInt 3) / ofInt 4) * fin false 1 (-1074) = fin false 1 (-1074) ∧
    inf false - inf false = nan ∧
    (0 : Double) * inf false = nan ∧
    (0 : Double) / 0 = nan ∧
    (1 : Double) / 0 = inf false ∧
    (-1 : Double) / 0 = inf true ∧
    sqrt (-1) = nan ∧
    eq nan nan = false ∧
    eq (-0) 0 = true := by
  decide

theorem signed_not (s : Bool) (a : Nat) : signed (!s) a = -signed s a := by
  cases s <;> simp [signed]

theorem signed_eq_zero {s : Bool} {a : Nat} : signed s a = 0 ↔ a = 0 := by
  cases s <;> simp [signed]

/-- Subtracting a finite double from itself gives `+0.0`. -/
theorem sub_self_of_isFinite (x : Double) (h : x.isFinite = true) : x - x = 0 := by
  cases x with
  | fin s m e =>
    show add (fin s m e) (neg (fin s m e)) = fin false 0 (-1074)
    simp [add, neg, signed_not]
  | inf s => simp [isFinite] at h
  | nan => simp [isFinite] at h

/-- The difference of two zeros is a zero. -/
theorem isZero_sub_of_isZero (x y : Double) (hx : x.isZero = true) (hy : y.isZero = true) :
    (x - y).isZero = true := by
  cases x with
  | fin s m e =>
    cases y with
    | fin t n f =>
      simp only [isZero, decide_eq_true_eq] at hx hy
      subst hx; subst hy
      show (add (fin s 0 e) (neg (fin t 0 f))).isZero = true
      simp [add, neg, signed, isZero]
    | inf t => simp [isZero] at hy
    | nan => simp [isZero] at hy
  | inf s => simp [isZero] at hx
  | nan => simp [isZero] at hx

/-- A finite double times a zero is a zero. -/
theorem isZero_mul_of_isZero (w z : Double) (hw : w.isFinite = true) (hz : z.isZero = true) :
    (w * z).isZero = true := by
  cases w with
  | fin s m e =>
    cases z with
    | fin t n f =>
      simp only [isZero, decide_eq_true_eq] at hz
      subst hz
      show (mul (fin s m e) (fin t 0 f)).isZero = true
      simp [mul, round, isZero]
    | inf t => simp [isZero] at hz
    | nan => simp [isZero] at hz
  | inf s => simp [isFinite] at hw
  | nan => simp [isFinite] at hw


theorem neg_fin (s : Bool) (m : Nat) (e : Int) : neg (fin s m e) = fin (!s) m e := rfl

theorem neg_inf (s : Bool) : neg (inf s) = inf (!s) := rfl

theorem neg_nan : neg nan = nan := rfl

theorem neg_round (s : Bool) (a : Nat) (E : Int) : neg (round s a E) = round (!s) a E := by
  simp only [round]
  split_ifs <;> rfl

/-- Multiplication commutes with unary minus in the second factor. -/
theorem mul_neg_eq (w d : Double) : w * (-d) = -(w * d) := by
  show mul w (neg d) = neg (mul w d)
  cases w with
  | fin s m e =>
    cases d with
    | fin t n f => simp only [mul, neg_fin, neg_round, Bool.xor_not]
    | inf t =>
      by_cases hm : m = 0 <;> simp [mul, neg_inf, neg_nan, hm]
    | nan => simp [mul, neg_nan]
  | inf s =>
    cases d with
    | fin t n f =>
      by_cases hn : n = 0 <;> simp [mul, neg_fin, neg_inf, neg_nan, hn]
    | inf t => simp [mul, neg_inf]
    | nan => simp [mul, neg_nan]
  | nan => cases d <;> simp [mul, neg_fin, neg_inf, neg_nan]

/-- Swapping the operands of a subtraction negates the result, except that
two differences that are both zero may carry any signs. -/
theorem sub_swap (x y : Double) :
    y - x = -(x - y) ∨ ((x - y).isZero = true ∧ (y - x).isZero = true) := by
  show add y (neg x) = neg (add x (neg y)) ∨
    ((add x (neg y)).isZero = true ∧ (add y (neg x)).isZero = true)
  cases x with
  | fin s m e =>
    cases y with
    | fin t n f =>
      simp only [add, neg_fin, signed_not]
      by_cases hz : signed s (m * 2 ^ (e - min e f).toNat) +
          -signed t (n * 2 ^ (f - min e f).toNat) = 0
      · right
        have hz' : signed t (n * 2 ^ (f - min f e).toNat) +
            -signed s (m * 2 ^ (e - min f e).toNat) = 0 := by
          rw [min_comm f e]; omega
        simp [hz, hz', isZero]
      · left
        have hz' : ¬ (signed t (n * 2 ^ (f - min f e).toNat) +
            -signed s (m * 2 ^ (e - min f e).toNat) = 0) := by
          rw [min_comm f e]; omega
        rw [if_neg hz, if_neg hz', neg_round, min_comm f e]
        congr 1
        · have key : ∀ A B : Int, ¬ (A + -B = 0) →
              decide (B + -A < 0) = !decide (A + -B < 0) := by
            intro A B h
            by_cases h1 : A + -B < 0 <;> simp [h1] <;> omega
          exact key _ _ hz
        · omega
    | inf t => left; simp [add, neg_fin, neg_inf]
    | nan => left; simp [add, neg_fin, neg_nan]
  | inf s =>
    cases y with
    | fin t n f => left; simp [add, neg_fin, neg_inf]
    | inf t =>
      left
      cases s <;> cases t <;> simp [add, neg_inf, neg_nan]
    | nan => left; simp [add, neg_inf, neg_nan]
  | nan => left; cases y <;> simp [add, neg_fin, neg_inf, neg_nan]

/-- A double that is not a NaN compares equal to itself. -/
theorem eq_self_of_not_isNaN (x : Double) (h : x.isNaN = false) : eq x x = true := by
  cases x <;> simp_all [eq, isNaN]

/-- Two zeros compare equal. -/
theorem eq_of_isZero (x y : Double) (hx : x.isZero = true) (hy : y.isZero = true) :
    eq x y = true := by
  cases x <;> cases y <;> simp_all [eq, isZero, signed]

theorem isZero_neg (x : Double) : (neg x).isZero = x.isZero := by
  cases x <;> simp [neg, isZero]

theorem isNaN_neg (x : Double) : (neg x).isNaN = x.isNaN := by
  cases x <;> simp [neg, isNaN]


theorem ilog2_foldl_le (a : Nat) (l : List Nat) (acc : Nat) (h : 2 ^ acc ≤ a) :
    2 ^ (l.foldl (fun acc s => if 2 ^ (acc + s) ≤ a then acc + s else acc) acc) ≤ a := by
  induction l generalizing acc with
  | nil => simpa using h
  | cons s l ih =>
    simp only [List.foldl_cons]
    apply ih
    split_ifs with hs
    · exact hs
    · exact h

/-- The power of two at the position found by `ilog2` is at most `a`. -/
theorem two_pow_ilog2_le (a : Nat) (ha : a ≠ 0) : 2 ^ ilog2 a ≤ a := by
  unfold ilog2
  apply ilog2_foldl_le
  simp only [pow_zero]
  omega

/-- A nonzero exact value of magnitude at least 2^-1074 does not round to zero. -/
theorem isZero_round_eq_false (s : Bool) (a : Nat) (E : Int)
    (h : 2 ^ (-1074 - E).toNat ≤ a) : (round s a E).isZero = false := by
  have ha : a ≠ 0 := by
    have := Nat.pos_pow_of_pos (-1074 - E).toNat (by decide : 0 < 2)
    omega
  have hlog := two_pow_ilog2_le a ha
  have hk : 2 ^ (max (E + ((ilog2 a + 1 : Nat) : Int) - 53) (-1074) - E).toNat ≤ a := by
    rcases le_total (E + ((ilog2 a + 1 : Nat) : Int) - 53) (-1074) with hle | hle
    · rw [max_eq_right hle]; exact h
    · rw [max_eq_left hle]
      refine le_trans (Nat.pow_le_pow_right (by decide) ?_) hlog
      omega
  have hq : 0 < a / 2 ^ (max (E + ((ilog2 a + 1 : Nat) : Int) - 53) (-1074) - E).toNat :=
    Nat.div_pos hk (Nat.pos_pow_of_pos _ (by decide))
  simp only [round, if_neg ha]
  split_ifs <;> first
    | rfl
    | (simp only [isZero, decide_eq_false_iff_not]
       first
         | exact Nat.mul_ne_zero ha (Nat.ne_of_gt (Nat.pos_pow_of_pos _ (by decide)))
         | exact Nat.succ_ne_zero _
         | exact Nat.ne_of_gt hq)


/-- For finite doubles the difference is a zero exactly when the two compare
equal. -/
theorem isZero_sub_eq (x y : Double) (hx : x.isFinite = true) (hy : y.isFinite = true) :
    (x - y).isZero = eq x y := by
  cases x with
  | fin s m e =>
    cases y with
    | fin t n f =>
      simp only [isFinite, decide_eq_true_eq] at hx hy
      show (add (fin s m e) (neg (fin t n f))).isZero = eq (fin s m e) (fin t n f)
      simp only [add, neg_fin, signed_not, eq]
      by_cases hz : signed s (m * 2 ^ (e - min e f).toNat) +
          -signed t (n * 2 ^ (f - min e f).toNat) = 0
      · rw [if_pos hz]
        have : signed s (m * 2 ^ (e - min e f).toNat) =
            signed t (n * 2 ^ (f - min e f).toNat) := by omega
        simp [isZero, this]
      · rw [if_neg hz, isZero_round_eq_false]
        · have : ¬ (signed s (m * 2 ^ (e - min e f).toNat) =
              signed t (n * 2 ^ (f - min e f).toNat)) := by omega
          simp [this]
        · have hE : (-1074 - min e f).toNat = 0 := by
            rcases le_total e f with h | h
            · rw [min_eq_left h]; omega
            · rw [min_eq_right h]; omega
          rw [hE, pow_zero]
          omega
    | inf t => simp [isFinite] at hy
    | nan => simp [isFinite] at hy
  | inf s => simp [isFinite] at hx
  | nan => simp [isFinite] at hx

/-- Two finite doubles that compare equal are identical or both zero. -/
theorem eq_cases (x y : Double) (hx : x.isFinite = true) (hy : y.isFinite = true)
    (h : eq x y = true) : x = y ∨ (x.isZero = true ∧ y.isZero = true) := by
  cases x with
  | fin s m e =>
    cases y with
    | fin t n f =>
      simp only [isFinite, decide_eq_true_eq] at hx hy
      simp only [eq, decide_eq_true_eq] at h
      by_cases hm : m = 0
      · right
        subst hm
        simp only [zero_mul, signed_eq_zero.mpr] at h
        have hn := signed_eq_zero.mp h.symm
        have hp := Nat.pos_pow_of_pos (f - min e f).toNat (by decide : 0 < 2)
        have : n = 0 := by
          rcases Nat.eq_zero_or_pos n with h0 | h0
          · exact h0
          · have := Nat.mul_pos h0 hp
            omega
        simp [isZero, this]
      · left
        have hmpos : 0 < m := Nat.pos_of_ne_zero hm
        -- the signs agree and the aligned mantissas are equal
        have hst : s = t ∧ m * 2 ^ (e - min e f).toNat = n * 2 ^ (f - min e f).toNat := by
          have hp1 := Nat.mul_pos hmpos (Nat.pos_pow_of_pos (e - min e f).toNat (by decide : 0 < 2))
          cases s <;> cases t <;> simp only [signed, Bool.false_eq_true, if_false, if_true] at h <;>
            first
              | (refine ⟨rfl, ?_⟩; omega)
              | (exfalso; omega)
        obtain ⟨hs, hmn⟩ := hst
        subst hs
        have key : e = f := by
          by_contra hne
          rcases lt_or_gt_of_ne hne with hlt | hgt
          · -- e < f: then n ≥ 2^52 and m = n * 2^(f-e) ≥ 2^53
            have e1 : (e - min e f).toNat = 0 := by rw [min_eq_left (le_of_lt hlt)]; omega
            have e2 : (f - min e f).toNat = (f - e).toNat := by rw [min_eq_left (le_of_lt hlt)]
            rw [e1, e2, pow_zero, mul_one] at hmn
            have hn52 : 2 ^ 52 ≤ n := by
              by_contra hc
              have := hy.2.2.2 (Nat.lt_of_not_le hc)
              omega
            have h2 : 2 ≤ 2 ^ (f - e).toNat := by
              have : 1 ≤ (f - e).toNat := by omega
              calc 2 = 2 ^ 1 := by norm_num
                _ ≤ 2 ^ (f - e).toNat := Nat.pow_le_pow_right (by decide) this
            have : 2 ^ 52 * 2 ≤ n * 2 ^ (f - e).toNat := Nat.mul_le_mul hn52 h2
            have hm53 := hx.1
            omega
          · have e1 : (f - min e f).toNat = 0 := by rw [min_eq_right (le_of_lt hgt)]; omega
            have e2 : (e - min e f).toNat = (e - f).toNat := by rw [min_eq_right (le_of_lt hgt)]
            rw [e1, e2, pow_zero, mul_one] at hmn
            have hm52 : 2 ^ 52 ≤ m := by
              by_contra hc
              have := hx.2.2.2 (Nat.lt_of_not_le hc)
              omega
            have h2 : 2 ≤ 2 ^ (e - f).toNat := by
              have : 1 ≤ (e - f).toNat := by omega
              calc 2 = 2 ^ 1 := by norm_num
                _ ≤ 2 ^ (e - f).toNat := Nat.pow_le_pow_right (by decide) this
            have : 2 ^ 52 * 2 ≤ m * 2 ^ (e - f).toNat := Nat.mul_le_mul hm52 h2
            have hn53 := hy.1
            omega
        subst key
        have e1 : (e - min e e).toNat = 0 := by simp
        rw [e1, pow_zero, mul_one, mul_one] at hmn
        rw [hmn]
    | inf t => simp [isFinite] at hy
    | nan => simp [isFinite] at hy
  | inf s => simp [isFinite] at hx
  | nan => simp [isFinite] at hx

/-- A finite value times a zero is a zero, whatever the form of the finite
value. -/
theorem isZero_mul_fin_of_isZero (s : Bool) (m : Nat) (e : Int) (z : Double)
    (hz : z.isZero = true) : (fin s m e * z).isZero = true := by
  cases z with
  | fin t n f =>
    simp only [isZero, decide_eq_true_eq] at hz
    subst hz
    show (mul (fin s m e) (fin t 0 f)).isZero = true
    simp [mul, round, isZero]
  | inf t => simp [isZero] at hz
  | nan => simp [isZero] at hz

/-- A finite double is not a NaN. -/
theorem isNaN_of_isFinite (x : Double) (h : x.isFinite = true) : x.isNaN = false := by
  cases x <;> simp_all [isFinite, isNaN]

/-- Two finite doubles that both compare equal to a third finite double
compare equal to each other. -/
theorem eq_of_eq_of_eq (x y z : Double) (hx : x.isFinite = true) (hy : y.isFinite = true)
    (hz : z.isFinite = true) (h1 : eq x z = true) (h2 : eq y z = true) : eq x y = true := by
  rcases eq_cases x z hx hz h1 with rfl | ⟨hx0, hz0⟩
  · rcases eq_cases y x hy hx h2 with rfl | ⟨hy0, hx0⟩
    · exact eq_self_of_not_isNaN _ (isNaN_of_isFinite _ hy)
    · exact eq_of_isZero _ _ hx0 hy0
  · rcases eq_cases y z hy hz h2 with rfl | ⟨hy0, _⟩
    · exact eq_of_isZero _ _ hx0 hz0
    · exact eq_of_isZero _ _ hx0 hy0

/-- Two finite doubles that compare equal have the same square. -/
theorem mul_self_eq_of_eq (x y : Double) (hx : x.isFinite = true) (hy : y.isFinite = true)
    (h : eq x y = true) : x * x = y * y := by
  rcases eq_cases x y hx hy h with rfl | ⟨hx0, hy0⟩
  · rfl
  · cases x with
    | fin s m e =>
      cases y with
      | fin t n f =>
        simp only [isZero, decide_eq_true_eq] at hx0 hy0
        subst hx0; subst hy0
        show mul (fin s 0 e) (fin s 0 e) = mul (fin t 0 f) (fin t 0 f)
        simp [mul, round]
      | inf t => simp [isZero] at hy0
      | nan => simp [isZero] at hy0
    | inf s => simp [isZero] at hx0
    | nan => simp [isZero] at hx0

end Double

/-! ## ResidualImageProjection: points that project out of the image -/

/-- C1: for every error type, camera, weight, rotation, translation, point and
every sampler and rotation primitive: when the projected coordinate
(`transformed_c`, `transformed_r`) does not satisfy `0 ≤ c < width` and
`0 ≤ r < height`, each of the first `PE_RESIDUAL_NUM_ARRAY[PE_TYPE]` residual
components after the call is `0`. -/
theorem ResidualImageProjection_out_of_bounds_zero {S Img : Type} [Zero S] [Add S] [Sub S]
    [Mul S] [Div S] [IntCast S] [LE S] [LT S] [DecidableRel (fun a b : S => a ≤ b)]
    [DecidableRel (fun a b : S => a < b)]
    (rotate : Ptr S → Ptr S → Ptr S) (sample : Img → Img → Img → S → S → S)
    (self : ResidualImageProjection S Img) (rotation translation xyz residuals : Ptr S)
    (hout : ¬ ((0 ≤ self.transformed_c (ResidualImageProjection.p rotate rotation translation xyz) ∧
        self.transformed_c (ResidualImageProjection.p rotate rotation translation xyz) <
          (self.pCamera.width : S)) ∧
      (0 ≤ self.transformed_r (ResidualImageProjection.p rotate rotation translation xyz) ∧
        self.transformed_r (ResidualImageProjection.p rotate rotation translation xyz) <
          (self.pCamera.height : S))))
    (i : Nat) (hi : i < PE_RESIDUAL_NUM_ARRAY self.PE_TYPE) :
    (self.operator rotate sample rotation translation xyz residuals).2 i = 0 := by
  have hcond : ¬ (self.transformed_r (ResidualImageProjection.p rotate rotation translation xyz) ≥ 0 ∧
      self.transformed_r (ResidualImageProjection.p rotate rotation translation xyz) <
        (self.pCamera.height : S) ∧
      self.transformed_c (ResidualImageProjection.p rotate rotation translation xyz) ≥ 0 ∧
      self.transformed_c (ResidualImageProjection.p rotate rotation translation xyz) <
        (self.pCamera.width : S)) := by
    intro h
    exact hout ⟨⟨h.2.2.1, h.2.2.2⟩, ⟨h.1, h.2.1⟩⟩
  simp only [ResidualImageProjection.operator, if_neg hcond]
  rw [forLoop_store (fun _ => (0 : S))]
  simp [hi]

/-- C1, at a concrete input: a colour residual of weight 2 for the point
(10, 1, 1) under the zero rotation, seen by the 4 by 4 pinhole camera; the
point projects to column 10, outside the image. -/
theorem ResidualImageProjection_out_of_bounds_zero_witness :
    (¬ ((0 ≤ (ResidualImageProjection.mk (2 : ℝ) (vec3 1 1 1) (pinhole4 ℝ) unitFrame
          dataTermErrorType.PE_COLOR).transformed_c
          (ResidualImageProjection.p (AngleAxisRotatePoint ⟨Real.sqrt, Real.cos, Real.sin⟩)
            (vec3 0 0 0) (vec3 0 0 0) (vec3 10 1 1)) ∧
        (ResidualImageProjection.mk (2 : ℝ) (vec3 1 1 1) (pinhole4 ℝ) unitFrame
          dataTermErrorType.PE_COLOR).transformed_c
          (ResidualImageProjection.p (AngleAxisRotatePoint ⟨Real.sqrt, Real.cos, Real.sin⟩)
            (vec3 0 0 0) (vec3 0 0 0) (vec3 10 1 1)) < (((pinhole4 ℝ).width : Int) : ℝ)) ∧
      (0 ≤ (ResidualImageProjection.mk (2 : ℝ) (vec3 1 1 1) (pinhole4 ℝ) unitFrame
          dataTermErrorType.PE_COLOR).transformed_r
          (ResidualImageProjection.p (AngleAxisRotatePoint ⟨Real.sqrt, Real.cos, Real.sin⟩)
            (vec3 0 0 0) (vec3 0 0 0) (vec3 10 1 1)) ∧
        (ResidualImageProjection.mk (2 : ℝ) (vec3 1 1 1) (pinhole4 ℝ) unitFrame
          dataTermErrorType.PE_COLOR).transformed_r
          (ResidualImageProjection.p (AngleAxisRotatePoint ⟨Real.sqrt, Real.cos, Real.sin⟩)
            (vec3 0 0 0) (vec3 0 0 0) (vec3 10 1 1)) < (((pinhole4 ℝ).height : Int) : ℝ)))) ∧
    ((ResidualImageProjection.mk (2 : ℝ) (vec3 1 1 1) (pinhole4 ℝ) unitFrame
        dataTermErrorType.PE_COLOR).operator
        (AngleAxisRotatePoint ⟨Real.sqrt, Real.cos, Real.sin⟩) (fun _ _ _ c r => c + r + 1)
        (vec3 0 0 0) (vec3 0 0 0) (vec3 10 1 1) (fun _ => 7)).2 2 = 0 := by
  have hc : (ResidualImageProjection.mk (2 : ℝ) (vec3 1 1 1) (pinhole4 ℝ) unitFrame
      dataTermErrorType.PE_COLOR).transformed_c
      (ResidualImageProjection.p (AngleAxisRotatePoint ⟨Real.sqrt, Real.cos, Real.sin⟩)
        (vec3 0 0 0) (vec3 0 0 0) (vec3 10 1 1)) = 10 := by
    simp [ResidualImageProjection.transformed_c, ResidualImageProjection.p,
      AngleAxisRotatePoint, pinhole4, store, vec3]
  have hout : ¬ ((0 ≤ (ResidualImageProjection.mk (2 : ℝ) (vec3 1 1 1) (pinhole4 ℝ) unitFrame
          dataTermErrorType.PE_COLOR).transformed_c
          (ResidualImageProjection.p (AngleAxisRotatePoint ⟨Real.sqrt, Real.cos, Real.sin⟩)
            (vec3 0 0 0) (vec3 0 0 0) (vec3 10 1 1)) ∧
        (ResidualImageProjection.mk (2 : ℝ) (vec3 1 1 1) (pinhole4 ℝ) unitFrame
          dataTermErrorType.PE_COLOR).transformed_c
          (ResidualImageProjection.p (AngleAxisRotatePoint ⟨Real.sqrt, Real.cos, Real.sin⟩)
            (vec3 0 0 0) (vec3 0 0 0) (vec3 10 1 1)) < (((pinhole4 ℝ).width : Int) : ℝ)) ∧
      (0 ≤ (ResidualImageProjection.mk (2 : ℝ) (vec3 1 1 1) (pinhole4 ℝ) unitFrame
          dataTermErrorType.PE_COLOR).transformed_r
          (ResidualImageProjection.p (AngleAxisRotatePoint ⟨Real.sqrt, Real.cos, Real.sin⟩)
            (vec3 0 0 0) (vec3 0 0 0) (vec3 10 1 1)) ∧
        (ResidualImageProjection.mk (2 : ℝ) (vec3 1 1 1) (pinhole4 ℝ) unitFrame
          dataTermErrorType.PE_COLOR).transformed_r
          (ResidualImageProjection.p (AngleAxisRotatePoint ⟨Real.sqrt, Real.cos, Real.sin⟩)
            (vec3 0 0 0) (vec3 0 0 0) (vec3 10 1 1)) < (((pinhole4 ℝ).height : Int) : ℝ))) := by
    rw [hc]
    intro h
    have h4 : (((pinhole4 ℝ).width : Int) : ℝ) = 4 := by simp [pinhole4]
    rw [h4] at h
    linarith [h.1.2]
  exact ⟨hout, ResidualImageProjection_out_of_bounds_zero _ _ _ _ _ _ _ hout 2
    (by simp [PE_RESIDUAL_NUM_ARRAY])⟩

/-! ## ResidualDeform -/

/-- Each of the three residual components of `ResidualTV::operator()`. -/
theorem ResidualTV_component {S : Type} [Sub S] [Mul S] (self : ResidualTV S)
    (pCurrentVertex pCurrentNeighbor residuals : Ptr S) (i : Nat) (hi : i < 3) :
    (self.operator pCurrentVertex pCurrentNeighbor residuals).2 i =
      self.weight * ((self.pVertex i - self.pNeighbor i) -
        (pCurrentVertex i - pCurrentNeighbor i)) := by
  simp only [ResidualTV.operator]
  rw [forLoop_store (fun i => self.weight * ((self.pVertex i - self.pNeighbor i) -
    (pCurrentVertex i - pCurrentNeighbor i)))]
  simp [hi]

/-- C5: the residual components of `ResidualTV::operator()` are
`w * ((V[i] - N[i]) - (v[i] - n[i]))` for `i` in 0..2; for w = 2, V = (0,0,0),
N = (1,0,0), v = (0,0,0), n = (2,0,0) the residual is (2,0,0). -/
theorem ResidualTV_formula_and_example {S : Type} [Sub S] [Mul S] (w : S)
    (pVertex pNeighbor pCurrentVertex pCurrentNeighbor residuals : Ptr S) :
    (∀ i, i < 3 → ((ResidualTV.mk w pVertex pNeighbor).operator pCurrentVertex
      pCurrentNeighbor residuals).2 i =
        w * ((pVertex i - pNeighbor i) - (pCurrentVertex i - pCurrentNeighbor i))) ∧
    (∀ r0 : Ptr ℚ, ∀ i, i < 3 →
      ((ResidualTV.mk (2 : ℚ) (vec3 0 0 0) (vec3 1 0 0)).operator (vec3 0 0 0) (vec3 2 0 0)
        r0).2 i = (vec3 (2 : ℚ) 0 0) i) := by
  constructor
  · intro i hi
    rw [ResidualTV_component _ _ _ _ i hi]
  · intro r0 i hi
    rw [ResidualTV_component _ _ _ _ i hi]
    interval_cases i
    all_goals norm_num [vec3]

/-! ## ResidualARAP -/

/-- The three residual components of `ResidualARAP::operator()`. -/
theorem ResidualARAP_component {S : Type} [Sub S] [Mul S] (rotate : Ptr S → Ptr S → Ptr S)
    (self : ResidualARAP S) (pCurrentVertex pCurrentNeighbor pRotVertex residuals : Ptr S)
    (i : Nat) (hi : i < 3) :
    (self.operator rotate pCurrentVertex pCurrentNeighbor pRotVertex residuals).2 i =
      self.weight * ((pCurrentVertex i - pCurrentNeighbor i) -
        rotate pRotVertex (fun j => self.pVertex j - self.pNeighbor j) i) := by
  interval_cases i <;> simp [ResidualARAP.operator, store]

/-- C3, as stated, fails: with weight 1, reference and current vertex (1,0,0),
reference and current neighbor (0,0,0) and the local rotation (0,0,2⁻³⁰), the
current edge equals the reference edge, yet the second residual component is
-2⁻³⁰: the rotation turns the reference edge (1,0,0) into (1,2⁻³⁰,0). -/
theorem ResidualARAP_same_edge_counterexample :
    (∀ i, i < 3 → (vec3 (1 : ℝ) 0 0) i - (vec3 (0 : ℝ) 0 0) i =
      (vec3 (1 : ℝ) 0 0) i - (vec3 (0 : ℝ) 0 0) i) ∧
    ((ResidualARAP.mk (1 : ℝ) (vec3 1 0 0) (vec3 0 0 0)).operator
      (AngleAxisRotatePoint ⟨Real.sqrt, Real.cos, Real.sin⟩)
      (vec3 1 0 0) (vec3 0 0 0) (vec3 0 0 (1 / 2 ^ 30)) (fun _ => 0)).2 1 = -(1 / 2 ^ 30) ∧
    ((ResidualARAP.mk (1 : ℝ) (vec3 1 0 0) (vec3 0 0 0)).operator
      (AngleAxisRotatePoint ⟨Real.sqrt, Real.cos, Real.sin⟩)
      (vec3 1 0 0) (vec3 0 0 0) (vec3 0 0 (1 / 2 ^ 30)) (fun _ => 0)).2 1 ≠ 0 := by
  have hval : ((ResidualARAP.mk (1 : ℝ) (vec3 1 0 0) (vec3 0 0 0)).operator
      (AngleAxisRotatePoint ⟨Real.sqrt, Real.cos, Real.sin⟩)
      (vec3 1 0 0) (vec3 0 0 0) (vec3 0 0 (1 / 2 ^ 30)) (fun _ => 0)).2 1 = -(1 / 2 ^ 30) := by
    rw [ResidualARAP_component _ _ _ _ _ _ 1 (by decide)]
    norm_num [AngleAxisRotatePoint, vec3]
  refine ⟨fun _ _ => rfl, hval, ?_⟩
  rw [hval]
  norm_num

/-! ## ResidualTemporalMotion -/

/-- Invoking the callback once for each cost appends the costs to the record. -/
theorem EnergyCallback_invoke_record {S : Type} (costs : List S) (self : EnergyCallback S) :
    (self.invoke costs).m_EnergyRecord = self.m_EnergyRecord ++ costs := by
  induction costs generalizing self with
  | nil => simp [EnergyCallback.invoke]
  | cons c cs ih =>
    have hstep : self.invoke (c :: cs) = (self.operator { cost := c }).2.invoke cs := rfl
    rw [hstep, ih]
    simp [EnergyCallback.operator]

/-- The loop of `PrintEnergy`, stopped after its first `n` rounds, has written
the cost lines of the first `n` recorded costs. -/
theorem printLoop_take {S : Type} (record : List S) (n : Nat) (hn : n ≤ record.length)
    (output : ostream S) :
    forLoop n (fun i h out => out ++ [Tok.int ((i : Int) + 1), Tok.str " ",
        Tok.num (record.get ⟨i, Nat.lt_of_lt_of_le h hn⟩), Tok.endl]) output =
      output ++ (costLines (record.take n)).flatten := by
  induction n with
  | zero => simp [forLoop, costLines]
  | succ n ih =>
    have hlt : n < record.length := hn
    simp only [forLoop]
    rw [ih (Nat.le_of_lt hlt)]
    have htake : record.take (n + 1) = record.take n ++ [record.get ⟨n, hlt⟩] := by
      rw [List.take_succ, List.getElem?_eq_getElem hlt]
      rfl
    have hlen : (record.take n).length = n := by
      simp [Nat.le_of_lt hlt]
    rw [htake]
    simp only [costLines, List.enum_append, List.enumFrom_singleton, hlen, List.map_append,
      List.flatten_append, List.map_cons, List.map_nil, List.flatten_cons, List.flatten_nil,
      List.append_nil, List.append_assoc]

/-- What `PrintEnergy` writes, for any record. -/
theorem PrintEnergy_eq {S : Type} (self : EnergyCallback S) (output : ostream S) :
    self.PrintEnergy output =
      output ++ [Tok.str "Energy Started", Tok.endl] ++ (costLines self.m_EnergyRecord).flatten ++
        [Tok.str "Energy Ended", Tok.endl] := by
  simp only [EnergyCallback.PrintEnergy]
  rw [printLoop_take self.m_EnergyRecord self.m_EnergyRecord.length (Nat.le_refl _)]
  simp

/-- The expected cost lines: one per cost, the `k`-th (from 0) carrying the
index `k + 1` and the `k`-th cost. -/
theorem costLines_spec {S : Type} (costs : List S) :
    (costLines costs).length = costs.length ∧
    ∀ (k : Nat) (h : k < costs.length), (costLines costs)[k]? =
      some [Tok.int ((k : Int) + 1), Tok.str " ", Tok.num (costs.get ⟨k, h⟩), Tok.endl] := by
  constructor
  · simp [costLines, List.enum]
  · intro k h
    simp [costLines, List.getElem?_eq_getElem, h, List.enum]

/-- C7: starting from a freshly constructed `EnergyCallback`, after the
callback has been invoked with the costs `c_1..c_N` in that order,
`PrintEnergy` appends to the stream the line "Energy Started", then exactly `N`
cost lines whose `k`-th line is the index `k`, a blank and the cost `c_k`, then
the line "Energy Ended". -/
theorem EnergyCallback_PrintEnergy_after_invocations {S : Type} (costs : List S)
    (output : ostream S) :
    ((EnergyCallback.new.invoke costs).PrintEnergy output =
      output ++ [Tok.str "Energy Started", Tok.endl] ++ (costLines costs).flatten ++
        [Tok.str "Energy Ended", Tok.endl]) ∧
    (costLines costs).length = costs.length ∧
    (∀ (k : Nat) (h : k < costs.length), (costLines costs)[k]? =
      some [Tok.int ((k : Int) + 1), Tok.str " ", Tok.num (costs.get ⟨k, h⟩), Tok.endl]) := by
  refine ⟨?_, (costLines_spec costs).1, (costLines_spec costs).2⟩
  rw [PrintEnergy_eq, EnergyCallback_invoke_record]
  simp [EnergyCallback.new]

/-- C8: for every recorder state and every iteration summary,
`EnergyCallback::operator()` returns `SOLVER_CONTINUE`, and the record after the
call is the record before with `summary.cost` appended: one entry longer, the
earlier entries unchanged, the last entry the cost. -/
theorem EnergyCallback_operator_appends {S : Type} (self : EnergyCallback S)
    (summary : IterationSummary S) :
    (self.operator summary).1 = CallbackReturnType.SOLVER_CONTINUE ∧
    (self.operator summary).1 ≠ CallbackReturnType.SOLVER_ABORT ∧
    (self.operator summary).1 ≠ CallbackReturnType.SOLVER_TERMINATE_SUCCESSFULLY ∧
    (self.operator summary).2.m_EnergyRecord = self.m_EnergyRecord ++ [summary.cost] ∧
    (self.operator summary).2.m_EnergyRecord.length = self.m_EnergyRecord.length + 1 ∧
    (∀ (i : Nat), i < self.m_EnergyRecord.length →
      (self.operator summary).2.m_EnergyRecord[i]? = self.m_EnergyRecord[i]?) ∧
    (self.operator summary).2.m_EnergyRecord[self.m_EnergyRecord.length]? =
      some summary.cost := by
  refine ⟨rfl, by simp [EnergyCallback.operator], by simp [EnergyCallback.operator], rfl,
    by simp [EnergyCallback.operator], ?_, by simp [EnergyCallback.operator]⟩
  intro i hi
  simp [EnergyCallback.operator, List.getElem?_append_left hi]

/-- C9: for every `EnergyCallback` state, after `Reset` the record is empty and
`PrintEnergy` writes no cost line; and after `M` further callbacks with the
costs `d_1..d_M`, `PrintEnergy` writes exactly the cost lines of `d_1..d_M`,
indexed from 1, whatever was recorded before the `Reset`. -/
theorem EnergyCallback_Reset_clears {S : Type} (self : EnergyCallback S) (costs : List S)
    (output : ostream S) :
    self.Reset.m_EnergyRecord = [] ∧
    (self.Reset.PrintEnergy output =
      output ++ [Tok.str "Energy Started", Tok.endl] ++ [Tok.str "Energy Ended", Tok.endl]) ∧
    ((self.Reset.invoke costs).PrintEnergy output =
      output ++ [Tok.str "Energy Started", Tok.endl] ++ (costLines costs).flatten ++
        [Tok.str "Energy Ended", Tok.endl]) ∧
    (self.Reset.invoke costs).PrintEnergy output =
      (EnergyCallback.new.invoke costs).PrintEnergy output ∧
    (costLines costs).length = costs.length ∧
    (∀ (k : Nat) (h : k < costs.length), (costLines costs)[k]? =
      some [Tok.int ((k : Int) + 1), Tok.str " ", Tok.num (costs.get ⟨k, h⟩), Tok.endl]) := by
  refine ⟨rfl, ?_, ?_, ?_, (costLines_spec costs).1, (costLines_spec costs).2⟩
  · rw [PrintEnergy_eq]
    simp [EnergyCallback.Reset, costLines]
  · rw [PrintEnergy_eq, EnergyCallback_invoke_record]
    simp [EnergyCallback.Reset]
  · rw [PrintEnergy_eq, PrintEnergy_eq, EnergyCallback_invoke_record,
      EnergyCallback_invoke_record]
    simp [EnergyCallback.Reset, EnergyCallback.new]

/-! ## ResidualINEXTENT: the edge-length residual -/

/-- The single residual component of `ResidualINEXTENT::operator()`, for any
scalar type and any square-root function. -/
theorem ResidualINEXTENT_component {S : Type} [Add S] [Sub S] [Mul S] (sqrt : S → S)
    (self : ResidualINEXTENT S) (pCurrentVertex pCurrentNeighbor residuals : Ptr S) :
    (self.operator sqrt pCurrentVertex pCurrentNeighbor residuals).2 0 =
      self.weight *
        (sqrt ((self.pVertex 0 - self.pNeighbor 0) * (self.pVertex 0 - self.pNeighbor 0) +
            (self.pVertex 1 - self.pNeighbor 1) * (self.pVertex 1 - self.pNeighbor 1) +
            (self.pVertex 2 - self.pNeighbor 2) * (self.pVertex 2 - self.pNeighbor 2)) -
          sqrt ((pCurrentVertex 0 - pCurrentNeighbor 0) * (pCurrentVertex 0 - pCurrentNeighbor 0) +
            (pCurrentVertex 1 - pCurrentNeighbor 1) * (pCurrentVertex 1 - pCurrentNeighbor 1) +
            (pCurrentVertex 2 - pCurrentNeighbor 2) * (pCurrentVertex 2 - pCurrentNeighbor 2))) := by
  simp only [ResidualINEXTENT.operator, store_same]

/-! ## ResidualRotTV -/

/-- Each of the three residual components of `ResidualRotTV::operator()`. -/
theorem ResidualRotTV_component {S : Type} [Sub S] [Mul S] (self : ResidualRotTV S)
    (pCurrentRot pCurrentNeighbor residuals : Ptr S) (i : Nat) (hi : i < 3) :
    (self.operator pCurrentRot pCurrentNeighbor residuals).2 i =
      self.weight * (pCurrentRot i - pCurrentNeighbor i) := by
  simp only [ResidualRotTV.operator]
  rw [forLoop_store (fun i => self.weight * (pCurrentRot i - pCurrentNeighbor i))]
  simp [hi]

/-! ## ResidualImageProjection: the branches inside the image -/

/-- The first three entries of the array `p`: the rotated point plus the
translation. -/
theorem ResidualImageProjection_p_apply {S : Type} [Add S] (rotate : Ptr S → Ptr S → Ptr S)
    (rotation translation xyz : Ptr S) (i : Nat) (hi : i < 3) :
    ResidualImageProjection.p rotate rotation translation xyz i =
      rotate rotation xyz i + translation i := by
  interval_cases i <;> simp [ResidualImageProjection.p, store]

/-- The intensity branch: inside the image, slot 0 is the weighted difference
of the sampled gray value and the template value. -/
theorem ResidualImageProjection_intensity_in_bounds {S Img : Type} [Zero S] [Add S] [Sub S]
    [Mul S] [Div S] [IntCast S] [LE S] [LT S] [DecidableRel (fun a b : S => a ≤ b)]
    [DecidableRel (fun a b : S => a < b)]
    (rotate : Ptr S → Ptr S → Ptr S) (sample : Img → Img → Img → S → S → S)
    (self : ResidualImageProjection S Img) (rotation translation xyz residuals : Ptr S)
    (hty : self.PE_TYPE = dataTermErrorType.PE_INTENSITY) (c r : S)
    (hc : self.transformed_c (ResidualImageProjection.p rotate rotation translation xyz) = c)
    (hr : self.transformed_r (ResidualImageProjection.p rotate rotation translation xyz) = r)
    (hin : r ≥ 0 ∧ r < (self.pCamera.height : S) ∧ c ≥ 0 ∧ c < (self.pCamera.width : S)) :
    (self.operator rotate sample rotation translation xyz residuals).2 0 =
      self.weight * (sample self.pFrame.grayImage self.pFrame.gradXImage
        self.pFrame.gradYImage c r - self.pValue 0) := by
  simp only [ResidualImageProjection.operator, hc, hr, if_pos hin, hty, store_same]

/-- The colour branch: inside the image, slot `i` is the weighted difference of
the sampled `i`-th colour channel and the `i`-th template value. -/
theorem ResidualImageProjection_color_in_bounds {S Img : Type} [Zero S] [Add S] [Sub S]
    [Mul S] [Div S] [IntCast S] [LE S] [LT S] [DecidableRel (fun a b : S => a ≤ b)]
    [DecidableRel (fun a b : S => a < b)]
    (rotate : Ptr S → Ptr S → Ptr S) (sample : Img → Img → Img → S → S → S)
    (self : ResidualImageProjection S Img) (rotation translation xyz residuals : Ptr S)
    (hty : self.PE_TYPE = dataTermErrorType.PE_COLOR) (c r : S)
    (hc : self.transformed_c (ResidualImageProjection.p rotate rotation translation xyz) = c)
    (hr : self.transformed_r (ResidualImageProjection.p rotate rotation translation xyz) = r)
    (hin : r ≥ 0 ∧ r < (self.pCamera.height : S) ∧ c ≥ 0 ∧ c < (self.pCamera.width : S))
    (i : Nat) (hi : i < 3) :
    (self.operator rotate sample rotation translation xyz residuals).2 i =
      self.weight * (sample (self.pFrame.colorImageSplit i) (self.pFrame.colorImageGradXSplit i)
        (self.pFrame.colorImageGradYSplit i) c r - self.pValue i) := by
  simp only [ResidualImageProjection.operator, hc, hr, if_pos hin, hty]
  rw [forLoop_store (fun i => self.weight * (sample (self.pFrame.colorImageSplit i)
    (self.pFrame.colorImageGradXSplit i) (self.pFrame.colorImageGradYSplit i) c r -
      self.pValue i))]
  simp [hi]

/-- The depth branch of an orthographic camera: inside the image, slot 0 is the
weighted difference of the sampled depth and the depth of the point, and slots
1 and 2 are 0. -/
theorem ResidualImageProjection_depth_ortho_in_bounds {S Img : Type} [Zero S] [Add S] [Sub S]
    [Mul S] [Div S] [IntCast S] [LE S] [LT S] [DecidableRel (fun a b : S => a ≤ b)]
    [DecidableRel (fun a b : S => a < b)]
    (rotate : Ptr S → Ptr S → Ptr S) (sample : Img → Img → Img → S → S → S)
    (self : ResidualImageProjection S Img) (rotation translation xyz residuals : Ptr S)
    (hty : self.PE_TYPE = dataTermErrorType.PE_DEPTH)
    (hortho : self.pCamera.isOrthoCamera = true) (c r : S)
    (hc : self.transformed_c (ResidualImageProjection.p rotate rotation translation xyz) = c)
    (hr : self.transformed_r (ResidualImageProjection.p rotate rotation translation xyz) = r)
    (hin : r ≥ 0 ∧ r < (self.pCamera.height : S) ∧ c ≥ 0 ∧ c < (self.pCamera.width : S)) :
    (self.operator rotate sample rotation translation xyz residuals).2 0 =
      self.weight * (sample self.pFrame.depthImage self.pFrame.depthGradXImage
        self.pFrame.depthGradYImage c r - xyz 2) ∧
    (self.operator rotate sample rotation translation xyz residuals).2 1 = 0 ∧
    (self.operator rotate sample rotation translation xyz residuals).2 2 = 0 := by
  simp only [ResidualImageProjection.operator, hc, hr, if_pos hin, hty, hortho]
  simp [store]

/-! ## ResidualImageProjection: which slots are written -/

/-- The slots from `PE_RESIDUAL_NUM_ARRAY[PE_TYPE]` on keep their value. -/
theorem ResidualImageProjection_frame {S Img : Type} [Zero S] [Add S] [Sub S]
    [Mul S] [Div S] [IntCast S] [LE S] [LT S] [DecidableRel (fun a b : S => a ≤ b)]
    [DecidableRel (fun a b : S => a < b)]
    (rotate : Ptr S → Ptr S → Ptr S) (sample : Img → Img → Img → S → S → S)
    (self : ResidualImageProjection S Img) (rotation translation xyz residuals : Ptr S)
    (i : Nat) (hi : PE_RESIDUAL_NUM_ARRAY self.PE_TYPE ≤ i) :
    (self.operator rotate sample rotation translation xyz residuals).2 i = residuals i := by
  obtain ⟨w, pValue, cam, frame, ty⟩ := self
  cases ty
  · have h0 : i ≠ 0 := by simp only [PE_RESIDUAL_NUM_ARRAY] at hi; omega
    simp only [ResidualImageProjection.operator, PE_RESIDUAL_NUM_ARRAY, forLoop]
    split_ifs <;> simp [store, h0]
  · have h0 : i ≠ 0 := by simp only [PE_RESIDUAL_NUM_ARRAY] at hi; omega
    have h1 : i ≠ 1 := by simp only [PE_RESIDUAL_NUM_ARRAY] at hi; omega
    have h2 : i ≠ 2 := by simp only [PE_RESIDUAL_NUM_ARRAY] at hi; omega
    simp only [ResidualImageProjection.operator, PE_RESIDUAL_NUM_ARRAY, forLoop]
    split_ifs <;> simp [store, h0, h1, h2]
  · have h0 : i ≠ 0 := by simp only [PE_RESIDUAL_NUM_ARRAY] at hi; omega
    have h1 : i ≠ 1 := by simp only [PE_RESIDUAL_NUM_ARRAY] at hi; omega
    have h2 : i ≠ 2 := by simp only [PE_RESIDUAL_NUM_ARRAY] at hi; omega
    simp only [ResidualImageProjection.operator, PE_RESIDUAL_NUM_ARRAY, forLoop]
    split_ifs <;> simp [store, h0, h1, h2]
  · have h0 : i ≠ 0 := by simp only [PE_RESIDUAL_NUM_ARRAY] at hi; omega
    simp only [ResidualImageProjection.operator, PE_RESIDUAL_NUM_ARRAY, forLoop]
    split_ifs <;> simp [store, h0]

/-- The slots below `PE_RESIDUAL_NUM_ARRAY[PE_TYPE]` are overwritten: their
value after the call does not depend on the buffer before the call. -/
theorem ResidualImageProjection_overwrites {S Img : Type} [Zero S] [Add S] [Sub S]
    [Mul S] [Div S] [IntCast S] [LE S] [LT S] [DecidableRel (fun a b : S => a ≤ b)]
    [DecidableRel (fun a b : S => a < b)]
    (rotate : Ptr S → Ptr S → Ptr S) (sample : Img → Img → Img → S → S → S)
    (self : ResidualImageProjection S Img) (rotation translation xyz residuals residuals' : Ptr S)
    (i : Nat) (hi : i < PE_RESIDUAL_NUM_ARRAY self.PE_TYPE) :
    (self.operator rotate sample rotation translation xyz residuals).2 i =
      (self.operator rotate sample rotation translation xyz residuals').2 i := by
  obtain ⟨w, pValue, cam, frame, ty⟩ := self
  cases ty <;> simp only [PE_RESIDUAL_NUM_ARRAY] at hi <;> interval_cases i <;>
    simp only [ResidualImageProjection.operator, PE_RESIDUAL_NUM_ARRAY, forLoop] <;>
    split_ifs <;> simp [store]

/-- C12: `ResidualImageProjection::operator()` writes exactly the first
`PE_RESIDUAL_NUM_ARRAY[PE_TYPE]` slots of the residual buffer, the table being
1, 3, 3, 1 for intensity, colour, depth and depth-plane: for every input every
slot from that count on holds after the call what it held before, every slot
below it holds a value that does not depend on the buffer before the call, and
for `PE_DEPTH_PLANE` and `PE_INTENSITY` slots 1 and 2 are left unchanged. -/
theorem ResidualImageProjection_writes_first_slots {S Img : Type} [Zero S] [Add S] [Sub S]
    [Mul S] [Div S] [IntCast S] [LE S] [LT S] [DecidableRel (fun a b : S => a ≤ b)]
    [DecidableRel (fun a b : S => a < b)]
    (rotate : Ptr S → Ptr S → Ptr S) (sample : Img → Img → Img → S → S → S)
    (self : ResidualImageProjection S Img) (rotation translation xyz residuals : Ptr S) :
    (PE_RESIDUAL_NUM_ARRAY dataTermErrorType.PE_INTENSITY = 1 ∧
      PE_RESIDUAL_NUM_ARRAY dataTermErrorType.PE_COLOR = 3 ∧
      PE_RESIDUAL_NUM_ARRAY dataTermErrorType.PE_DEPTH = 3 ∧
      PE_RESIDUAL_NUM_ARRAY dataTermErrorType.PE_DEPTH_PLANE = 1) ∧
    (∀ i, PE_RESIDUAL_NUM_ARRAY self.PE_TYPE ≤ i →
      (self.operator rotate sample rotation translation xyz residuals).2 i = residuals i) ∧
    (∀ (residuals' : Ptr S) (i : Nat), i < PE_RESIDUAL_NUM_ARRAY self.PE_TYPE →
      (self.operator rotate sample rotation translation xyz residuals).2 i =
        (self.operator rotate sample rotation translation xyz residuals').2 i) ∧
    (self.PE_TYPE = dataTermErrorType.PE_DEPTH_PLANE ∨
        self.PE_TYPE = dataTermErrorType.PE_INTENSITY →
      (self.operator rotate sample rotation translation xyz residuals).2 1 = residuals 1 ∧
      (self.operator rotate sample rotation translation xyz residuals).2 2 = residuals 2) := by
  refine ⟨⟨rfl, rfl, rfl, rfl⟩, ?_, ?_, ?_⟩
  · intro i hi
    exact ResidualImageProjection_frame rotate sample self _ _ _ _ i hi
  · intro residuals' i hi
    exact ResidualImageProjection_overwrites rotate sample self _ _ _ _ _ i hi
  · intro hty
    have hn : PE_RESIDUAL_NUM_ARRAY self.PE_TYPE = 1 := by
      rcases hty with h | h <;> rw [h] <;> rfl
    exact ⟨ResidualImageProjection_frame rotate sample self _ _ _ _ 1 (by omega),
      ResidualImageProjection_frame rotate sample self _ _ _ _ 2 (by omega)⟩

/-! ## ResidualImageProjection: orthographic depth, perspective intensity and colour -/

/-- C13: for an orthographic camera and `PE_DEPTH`, whenever the transformed
point `p = rotate(rotation, xyz) + translation` satisfies `0 ≤ p[0] < width`
and `0 ≤ p[1] < height`, the residual is `(w * (d - xyz[2]), 0, 0)` with `d`
the depth image sampled at column `p[0]`, row `p[1]`; the intrinsics `KK` and
`invKK` are arbitrary and do not occur in the result. -/
theorem ResidualImageProjection_ortho_depth {S Img : Type} [Zero S] [Add S] [Sub S]
    [Mul S] [Div S] [IntCast S] [LE S] [LT S] [DecidableRel (fun a b : S => a ≤ b)]
    [DecidableRel (fun a b : S => a < b)]
    (rotate : Ptr S → Ptr S → Ptr S) (sample : Img → Img → Img → S → S → S)
    (w : S) (pValue : Ptr S) (KK invKK : Nat → Nat → S) (width height : Int)
    (frame : ImageLevel Img) (rotation translation xyz residuals : Ptr S)
    (hc0 : 0 ≤ rotate rotation xyz 0 + translation 0)
    (hcw : rotate rotation xyz 0 + translation 0 < (width : S))
    (hr0 : 0 ≤ rotate rotation xyz 1 + translation 1)
    (hrh : rotate rotation xyz 1 + translation 1 < (height : S)) :
    ((ResidualImageProjection.mk w pValue (CameraInfo.mk true KK invKK width height) frame
        dataTermErrorType.PE_DEPTH).operator rotate sample rotation translation xyz
        residuals).2 0 =
      w * (sample frame.depthImage frame.depthGradXImage frame.depthGradYImage
        (rotate rotation xyz 0 + translation 0) (rotate rotation xyz 1 + translation 1) -
          xyz 2) ∧
    ((ResidualImageProjection.mk w pValue (CameraInfo.mk true KK invKK width height) frame
        dataTermErrorType.PE_DEPTH).operator rotate sample rotation translation xyz
        residuals).2 1 = 0 ∧
    ((ResidualImageProjection.mk w pValue (CameraInfo.mk true KK invKK width height) frame
        dataTermErrorType.PE_DEPTH).operator rotate sample rotation translation xyz
        residuals).2 2 = 0 := by
  have hc : (ResidualImageProjection.mk w pValue (CameraInfo.mk true KK invKK width height)
      frame dataTermErrorType.PE_DEPTH).transformed_c
      (ResidualImageProjection.p rotate rotation translation xyz) =
        rotate rotation xyz 0 + translation 0 := by
    simp only [ResidualImageProjection.transformed_c, if_true]
    exact ResidualImageProjection_p_apply rotate _ _ _ 0 (by decide)
  have hr : (ResidualImageProjection.mk w pValue (CameraInfo.mk true KK invKK width height)
      frame dataTermErrorType.PE_DEPTH).transformed_r
      (ResidualImageProjection.p rotate rotation translation xyz) =
        rotate rotation xyz 1 + translation 1 := by
    simp only [ResidualImageProjection.transformed_r, if_true]
    exact ResidualImageProjection_p_apply rotate _ _ _ 1 (by decide)
  exact ResidualImageProjection_depth_ortho_in_bounds rotate sample _ _ _ _ _ rfl rfl _ _ hc hr
    ⟨hr0, hrh, hc0, hcw⟩

/-- C13, at a concrete input: the point (1,2,5) under the zero rotation and
zero translation, seen by an orthographic camera of 4 by 4 pixels, with weight
2 and a sampler returning column + row + 1: the sampled depth is 4 and the
residual is (2 * (4 - 5), 0, 0). -/
theorem ResidualImageProjection_ortho_depth_witness :
    ((ResidualImageProjection.mk (2 : ℝ) (vec3 0 0 0)
        (CameraInfo.mk true (fun _ _ => 9) (fun _ _ => 9) 4 4) unitFrame
        dataTermErrorType.PE_DEPTH).operator
        (AngleAxisRotatePoint ⟨Real.sqrt, Real.cos, Real.sin⟩) (fun _ _ _ c r => c + r + 1)
        (vec3 0 0 0) (vec3 0 0 0) (vec3 1 2 5) (fun _ => 7)).2 0 = -2 ∧
    ((ResidualImageProjection.mk (2 : ℝ) (vec3 0 0 0)
        (CameraInfo.mk true (fun _ _ => 9) (fun _ _ => 9) 4 4) unitFrame
        dataTermErrorType.PE_DEPTH).operator
        (AngleAxisRotatePoint ⟨Real.sqrt, Real.cos, Real.sin⟩) (fun _ _ _ c r => c + r + 1)
        (vec3 0 0 0) (vec3 0 0 0) (vec3 1 2 5) (fun _ => 7)).2 1 = 0 ∧
    ((ResidualImageProjection.mk (2 : ℝ) (vec3 0 0 0)
        (CameraInfo.mk true (fun _ _ => 9) (fun _ _ => 9) 4 4) unitFrame
        dataTermErrorType.PE_DEPTH).operator
        (AngleAxisRotatePoint ⟨Real.sqrt, Real.cos, Real.sin⟩) (fun _ _ _ c r => c + r + 1)
        (vec3 0 0 0) (vec3 0 0 0) (vec3 1 2 5) (fun _ => 7)).2 2 = 0 := by
  have h0 : AngleAxisRotatePoint ⟨Real.sqrt, Real.cos, Real.sin⟩ (vec3 0 0 0) (vec3 1 2 5) 0 +
      (vec3 (0 : ℝ) 0 0) 0 = 1 := by
    norm_num [AngleAxisRotatePoint, vec3]
  have h1 : AngleAxisRotatePoint ⟨Real.sqrt, Real.cos, Real.sin⟩ (vec3 0 0 0) (vec3 1 2 5) 1 +
      (vec3 (0 : ℝ) 0 0) 1 = 2 := by
    norm_num [AngleAxisRotatePoint, vec3]
  have h := ResidualImageProjection_ortho_depth
    (AngleAxisRotatePoint ⟨Real.sqrt, Real.cos, Real.sin⟩)
    (fun (_ _ _ : Unit) (c r : ℝ) => c + r + 1) 2 (vec3 0 0 0)
    (fun _ _ => 9) (fun _ _ => 9) 4 4 unitFrame (vec3 0 0 0) (vec3 0 0 0) (vec3 1 2 5)
    (fun _ => 7) (by rw [h0]; norm_num) (by rw [h0]; norm_num) (by rw [h1]; norm_num)
    (by rw [h1]; norm_num)
  rw [h0, h1] at h
  refine ⟨?_, h.2.1, h.2.2⟩
  rw [h.1]
  norm_num [vec3]

/-- C14: for a perspective camera with intrinsics `KK` and the transformed
point `p = rotate(rotation, xyz) + translation`, the projected coordinates are
`c = p[0]*KK[0][0]/p[2] + KK[0][2]` and `r = p[1]*KK[1][1]/p[2] + KK[1][2]`;
whenever `0 ≤ c < width` and `0 ≤ r < height`, `PE_INTENSITY` gives
`residual[0] = weight * (S_gray(c, r) - pValue[0])` and `PE_COLOR` gives
`residual[i] = weight * (S_color_i(c, r) - pValue[i])` for `i` in 0..2. -/
theorem ResidualImageProjection_perspective_intensity_color {S Img : Type} [Zero S] [Add S] [Sub S]
    [Mul S] [Div S] [IntCast S] [LE S] [LT S] [DecidableRel (fun a b : S => a ≤ b)]
    [DecidableRel (fun a b : S => a < b)]
    (rotate : Ptr S → Ptr S → Ptr S) (sample : Img → Img → Img → S → S → S)
    (w : S) (pValue : Ptr S) (KK invKK : Nat → Nat → S) (width height : Int)
    (frame : ImageLevel Img) (rotation translation xyz residuals : Ptr S) (c r : S)
    (hc : c = ((rotate rotation xyz 0 + translation 0) * KK 0 0) /
      (rotate rotation xyz 2 + translation 2) + KK 0 2)
    (hr : r = ((rotate rotation xyz 1 + translation 1) * KK 1 1) /
      (rotate rotation xyz 2 + translation 2) + KK 1 2)
    (hc0 : 0 ≤ c) (hcw : c < (width : S)) (hr0 : 0 ≤ r) (hrh : r < (height : S)) :
    ((ResidualImageProjection.mk w pValue (CameraInfo.mk false KK invKK width height) frame
        dataTermErrorType.PE_INTENSITY).operator rotate sample rotation translation xyz
        residuals).2 0 =
      w * (sample frame.grayImage frame.gradXImage frame.gradYImage c r - pValue 0) ∧
    (∀ i, i < 3 →
      ((ResidualImageProjection.mk w pValue (CameraInfo.mk false KK invKK width height) frame
          dataTermErrorType.PE_COLOR).operator rotate sample rotation translation xyz
          residuals).2 i =
        w * (sample (frame.colorImageSplit i) (frame.colorImageGradXSplit i)
          (frame.colorImageGradYSplit i) c r - pValue i)) := by
  have hpc : ∀ ty : dataTermErrorType,
      (ResidualImageProjection.mk w pValue (CameraInfo.mk false KK invKK width height)
        frame ty).transformed_c (ResidualImageProjection.p rotate rotation translation xyz) =
          c := by
    intro ty
    simp only [ResidualImageProjection.transformed_c, Bool.false_eq_true, if_false]
    rw [ResidualImageProjection_p_apply rotate _ _ _ 0 (by decide),
      ResidualImageProjection_p_apply rotate _ _ _ 2 (by decide), hc]
  have hpr : ∀ ty : dataTermErrorType,
      (ResidualImageProjection.mk w pValue (CameraInfo.mk false KK invKK width height)
        frame ty).transformed_r (ResidualImageProjection.p rotate rotation translation xyz) =
          r := by
    intro ty
    simp only [ResidualImageProjection.transformed_r, Bool.false_eq_true, if_false]
    rw [ResidualImageProjection_p_apply rotate _ _ _ 1 (by decide),
      ResidualImageProjection_p_apply rotate _ _ _ 2 (by decide), hr]
  refine ⟨?_, ?_⟩
  · exact ResidualImageProjection_intensity_in_bounds rotate sample _ _ _ _ _ rfl c r
      (hpc _) (hpr _) ⟨hr0, hrh, hc0, hcw⟩
  · intro i hi
    exact ResidualImageProjection_color_in_bounds rotate sample _ _ _ _ _ rfl c r
      (hpc _) (hpr _) ⟨hr0, hrh, hc0, hcw⟩ i hi

/-- C14, at a concrete input: the point (0,2,1) under the zero rotation and
zero translation, seen by the 4 by 4 pinhole camera, projects to column 0 (the
lower bound) and row 2; with weight 3, template values 1 and a sampler
returning column + row + 1 every residual component is 3 * (3 - 1). -/
theorem ResidualImageProjection_perspective_intensity_color_witness :
    ((ResidualImageProjection.mk (3 : ℝ) (vec3 1 1 1)
        (CameraInfo.mk false (fun i j => if i = j then 1 else 0)
          (fun i j => if i = j then 1 else 0) 4 4) unitFrame
        dataTermErrorType.PE_INTENSITY).operator
        (AngleAxisRotatePoint ⟨Real.sqrt, Real.cos, Real.sin⟩) (fun _ _ _ c r => c + r + 1)
        (vec3 0 0 0) (vec3 0 0 0) (vec3 0 2 1) (fun _ => 7)).2 0 = 6 ∧
    (∀ i, i < 3 →
      ((ResidualImageProjection.mk (3 : ℝ) (vec3 1 1 1)
          (CameraInfo.mk false (fun i j => if i = j then 1 else 0)
            (fun i j => if i = j then 1 else 0) 4 4) unitFrame
          dataTermErrorType.PE_COLOR).operator
          (AngleAxisRotatePoint ⟨Real.sqrt, Real.cos, Real.sin⟩) (fun _ _ _ c r => c + r + 1)
          (vec3 0 0 0) (vec3 0 0 0) (vec3 0 2 1) (fun _ => 7)).2 i = 6) := by
  have h := ResidualImageProjection_perspective_intensity_color
    (AngleAxisRotatePoint ⟨Real.sqrt, Real.cos, Real.sin⟩)
    (fun (_ _ _ : Unit) (c r : ℝ) => c + r + 1) 3
    (vec3 1 1 1) (fun i j => if i = j then 1 else 0) (fun i j => if i = j then 1 else 0) 4 4
    unitFrame (vec3 0 0 0) (vec3 0 0 0) (vec3 0 2 1) (fun _ => 7) 0 2
    (by norm_num [AngleAxisRotatePoint, vec3]) (by norm_num [AngleAxisRotatePoint, vec3])
    (le_refl 0) (by norm_num) (by norm_num) (by norm_num)
  refine ⟨?_, ?_⟩
  · rw [h.1]
    norm_num [vec3]
  · intro i hi
    rw [h.2 i hi]
    interval_cases i
    all_goals norm_num [vec3]

/-! ## ResidualImageProjection: where the weight enters -/

/-- C16: the weight has no effect on the result of
`ResidualImageProjection::operator()` for `PE_DEPTH` with a perspective camera
and for `PE_DEPTH_PLANE` with any camera: two functors that differ only in
their weight return the same residual buffer for every rotation, translation
and point. Inside the image, `PE_INTENSITY`, `PE_COLOR` and orthographic
`PE_DEPTH` multiply the sampled difference by the weight. -/
theorem ResidualImageProjection_weight_effect {S Img : Type} [Zero S] [Add S] [Sub S]
    [Mul S] [Div S] [IntCast S] [LE S] [LT S] [DecidableRel (fun a b : S => a ≤ b)]
    [DecidableRel (fun a b : S => a < b)]
    (rotate : Ptr S → Ptr S → Ptr S) (sample : Img → Img → Img → S → S → S)
    (w w' : S) (pValue : Ptr S) (cam : CameraInfo S) (KK invKK : Nat → Nat → S)
    (width height : Int) (frame : ImageLevel Img)
    (rotation translation xyz residuals : Ptr S) :
    ((ResidualImageProjection.mk w pValue (CameraInfo.mk false KK invKK width height) frame
        dataTermErrorType.PE_DEPTH).operator rotate sample rotation translation xyz residuals =
      (ResidualImageProjection.mk w' pValue (CameraInfo.mk false KK invKK width height) frame
        dataTermErrorType.PE_DEPTH).operator rotate sample rotation translation xyz
        residuals) ∧
    ((ResidualImageProjection.mk w pValue cam frame
        dataTermErrorType.PE_DEPTH_PLANE).operator rotate sample rotation translation xyz
        residuals =
      (ResidualImageProjection.mk w' pValue cam frame
        dataTermErrorType.PE_DEPTH_PLANE).operator rotate sample rotation translation xyz
        residuals) ∧
    (∀ (ty : dataTermErrorType) (c r : S),
      (ResidualImageProjection.mk w pValue cam frame ty).transformed_c
        (ResidualImageProjection.p rotate rotation translation xyz) = c →
      (ResidualImageProjection.mk w pValue cam frame ty).transformed_r
        (ResidualImageProjection.p rotate rotation translation xyz) = r →
      (r ≥ 0 ∧ r < (cam.height : S) ∧ c ≥ 0 ∧ c < (cam.width : S)) →
      (ty = dataTermErrorType.PE_INTENSITY →
        ((ResidualImageProjection.mk w pValue cam frame ty).operator rotate sample rotation
          translation xyz residuals).2 0 =
          w * (sample frame.grayImage frame.gradXImage frame.gradYImage c r - pValue 0)) ∧
      (ty = dataTermErrorType.PE_COLOR → ∀ i, i < 3 →
        ((ResidualImageProjection.mk w pValue cam frame ty).operator rotate sample rotation
          translation xyz residuals).2 i =
          w * (sample (frame.colorImageSplit i) (frame.colorImageGradXSplit i)
            (frame.colorImageGradYSplit i) c r - pValue i)) ∧
      (ty = dataTermErrorType.PE_DEPTH → cam.isOrthoCamera = true →
        ((ResidualImageProjection.mk w pValue cam frame ty).operator rotate sample rotation
          translation xyz residuals).2 0 =
          w * (sample frame.depthImage frame.depthGradXImage frame.depthGradYImage c r -
            xyz 2))) := by
  refine ⟨?_, ?_, ?_⟩
  · simp only [ResidualImageProjection.operator, ResidualImageProjection.transformed_c,
      ResidualImageProjection.transformed_r, Bool.false_eq_true, if_false]
  · simp only [ResidualImageProjection.operator, ResidualImageProjection.transformed_c,
      ResidualImageProjection.transformed_r]
  · intro ty c r hc hr hin
    refine ⟨?_, ?_, ?_⟩
    · intro hty
      exact ResidualImageProjection_intensity_in_bounds rotate sample _ _ _ _ _ hty c r hc hr hin
    · intro hty i hi
      exact ResidualImageProjection_color_in_bounds rotate sample _ _ _ _ _ hty c r hc hr hin
        i hi
    · intro hty hortho
      exact (ResidualImageProjection_depth_ortho_in_bounds rotate sample _ _ _ _ _ hty hortho
        c r hc hr hin).1

/-! ## ResidualDeform in double arithmetic -/

/-- C3, amended: for every finite weight, every reference pair, current pair
and local rotation parameter: if the current edge vector equals the reference
edge vector, both with finite components, and the rotation by the local
rotation parameter returns the reference edge vector unchanged (as the zero
rotation does), then `ResidualARAP::operator()` writes (0,0,0). -/
theorem ResidualARAP_zero_of_same_edge (rotate : Ptr Double → Ptr Double → Ptr Double)
    (w : Double)
    (pVertex pNeighbor pCurrentVertex pCurrentNeighbor pRotVertex residuals : Ptr Double)
    (hw : w.isFinite = true)
    (href : ∀ i, i < 3 → (pVertex i - pNeighbor i).isFinite = true)
    (hcur : ∀ i, i < 3 → (pCurrentVertex i - pCurrentNeighbor i).isFinite = true)
    (hedge : ∀ i, i < 3 →
      Double.eq (pCurrentVertex i - pCurrentNeighbor i) (pVertex i - pNeighbor i) = true)
    (hrot : ∀ i, i < 3 →
      (rotate pRotVertex (fun j => pVertex j - pNeighbor j) i).isFinite = true)
    (hfix : ∀ i, i < 3 →
      Double.eq (rotate pRotVertex (fun j => pVertex j - pNeighbor j) i)
        (pVertex i - pNeighbor i) = true) :
    ∀ i, i < 3 → (((ResidualARAP.mk w pVertex pNeighbor).operator rotate pCurrentVertex
      pCurrentNeighbor pRotVertex residuals).2 i).isZero = true := by
  intro i hi
  rw [ResidualARAP_component _ _ _ _ _ _ i hi]
  apply Double.isZero_mul_of_isZero _ _ hw
  rw [Double.isZero_sub_eq _ _ (hcur i hi) (hrot i hi)]
  exact Double.eq_of_eq_of_eq _ _ _ (hcur i hi) (hrot i hi) (href i hi) (hedge i hi) (hfix i hi)

/-- C3, amended, at a concrete input: weight 3, reference edge
(1,2,3) - (0,1,1), current edge (5,6,7) - (4,5,5), both (1,1,2), and the zero
rotation, for which the rotation primitive takes the branch that calls neither
`cos` nor `sin`. -/
theorem ResidualARAP_zero_of_same_edge_witness :
    (((ResidualARAP.mk (Double.ofInt 3)
      (vec3 1 (Double.ofInt 2) (Double.ofInt 3)) (vec3 0 1 1)).operator
      (AngleAxisRotatePoint ⟨Double.sqrt, fun _ => Double.nan, fun _ => Double.nan⟩)
      (vec3 (Double.ofInt 5) (Double.ofInt 6) (Double.ofInt 7))
      (vec3 (Double.ofInt 4) (Double.ofInt 5) (Double.ofInt 5))
      (vec3 0 0 0) (fun _ => 1)).2 0).isZero = true ∧
    (((ResidualARAP.mk (Double.ofInt 3)
      (vec3 1 (Double.ofInt 2) (Double.ofInt 3)) (vec3 0 1 1)).operator
      (AngleAxisRotatePoint ⟨Double.sqrt, fun _ => Double.nan, fun _ => Double.nan⟩)
      (vec3 (Double.ofInt 5) (Double.ofInt 6) (Double.ofInt 7))
      (vec3 (Double.ofInt 4) (Double.ofInt 5) (Double.ofInt 5))
      (vec3 0 0 0) (fun _ => 1)).2 1).isZero = true ∧
    (((ResidualARAP.mk (Double.ofInt 3)
      (vec3 1 (Double.ofInt 2) (Double.ofInt 3)) (vec3 0 1 1)).operator
      (AngleAxisRotatePoint ⟨Double.sqrt, fun _ => Double.nan, fun _ => Double.nan⟩)
      (vec3 (Double.ofInt 5) (Double.ofInt 6) (Double.ofInt 7))
      (vec3 (Double.ofInt 4) (Double.ofInt 5) (Double.ofInt 5))
      (vec3 0 0 0) (fun _ => 1)).2 2).isZero = true :=
  have h := ResidualARAP_zero_of_same_edge
    (AngleAxisRotatePoint ⟨Double.sqrt, fun _ => Double.nan, fun _ => Double.nan⟩)
    (Double.ofInt 3) (vec3 1 (Double.ofInt 2) (Double.ofInt 3)) (vec3 0 1 1)
    (vec3 (Double.ofInt 5) (Double.ofInt 6) (Double.ofInt 7))
    (vec3 (Double.ofInt 4) (Double.ofInt 5) (Double.ofInt 5)) (vec3 0 0 0) (fun _ => 1)
    (by decide)
    (by intro i hi; interval_cases i <;> decide)
    (by intro i hi; interval_cases i <;> decide)
    (by intro i hi; interval_cases i <;> decide)
    (by intro i hi; interval_cases i <;> decide)
    (by intro i hi; interval_cases i <;> decide)
  ⟨h 0 (by decide), h 1 (by decide), h 2 (by decide)⟩

/-- Why the weight has to be finite: with weight +inf, the equal edges (1,1,2)
of the concrete input above and the zero rotation, the first residual
component of `ResidualARAP` is a NaN. -/
theorem ResidualARAP_infinite_weight_example :
    (((ResidualARAP.mk (Double.inf false)
      (vec3 1 (Double.ofInt 2) (Double.ofInt 3)) (vec3 0 1 1)).operator
      (AngleAxisRotatePoint ⟨Double.sqrt, fun _ => Double.nan, fun _ => Double.nan⟩)
      (vec3 (Double.ofInt 5) (Double.ofInt 6) (Double.ofInt 7))
      (vec3 (Double.ofInt 4) (Double.ofInt 5) (Double.ofInt 5))
      (vec3 0 0 0) (fun _ => 1)).2 0).isNaN = true := by
  decide

/-- C4, as stated, fails at overflow. With weight 1, reference and current
vertex (2^1023,0,0) and reference and current neighbor (-2^1023,0,0), all
finite, both edge vectors compute to (+inf,0,0) and the first residual
component of `ResidualTV` is a NaN. With reference and current vertex
(2^600,0,0) and both neighbors (0,0,0), the squared length overflows and the
residual of `ResidualINEXTENT` is a NaN. -/
theorem ResidualTV_INEXTENT_zero_of_same_edge_counterexample :
    (Double.fin false (2 ^ 52) 971).isFinite = true ∧
    (Double.fin true (2 ^ 52) 971).isFinite = true ∧
    (((ResidualTV.mk (1 : Double) (vec3 (Double.fin false (2 ^ 52) 971) 0 0)
      (vec3 (Double.fin true (2 ^ 52) 971) 0 0)).operator
      (vec3 (Double.fin false (2 ^ 52) 971) 0 0) (vec3 (Double.fin true (2 ^ 52) 971) 0 0)
      (fun _ => 1)).2 0).isNaN = true ∧
    (Double.fin false (2 ^ 52) 548).isFinite = true ∧
    (((ResidualINEXTENT.mk (1 : Double) (vec3 (Double.fin false (2 ^ 52) 548) 0 0)
      (vec3 0 0 0)).operator Double.sqrt
      (vec3 (Double.fin false (2 ^ 52) 548) 0 0) (vec3 0 0 0) (fun _ => 1)).2 0).isNaN = true := by
  decide

/-- C4, amended: for every finite weight and all vertex positions: if the
current edge vector equals the reference edge vector and both have finite
components, then `ResidualTV::operator()` writes (0,0,0); if moreover the
computed reference edge length is finite, `ResidualINEXTENT::operator()`
writes the single residual 0, for every square-root function. -/
theorem ResidualTV_INEXTENT_zero_of_same_edge (w : Double) (sqrt : Double → Double)
    (pVertex pNeighbor pCurrentVertex pCurrentNeighbor residuals : Ptr Double)
    (hw : w.isFinite = true)
    (href : ∀ i, i < 3 → (pVertex i - pNeighbor i).isFinite = true)
    (hcur : ∀ i, i < 3 → (pCurrentVertex i - pCurrentNeighbor i).isFinite = true)
    (hedge : ∀ i, i < 3 →
      Double.eq (pCurrentVertex i - pCurrentNeighbor i) (pVertex i - pNeighbor i) = true) :
    (∀ i, i < 3 → (((ResidualTV.mk w pVertex pNeighbor).operator pCurrentVertex
      pCurrentNeighbor residuals).2 i).isZero = true) ∧
    ((sqrt ((pVertex 0 - pNeighbor 0) * (pVertex 0 - pNeighbor 0) +
        (pVertex 1 - pNeighbor 1) * (pVertex 1 - pNeighbor 1) +
        (pVertex 2 - pNeighbor 2) * (pVertex 2 - pNeighbor 2))).isFinite = true →
      (((ResidualINEXTENT.mk w pVertex pNeighbor).operator sqrt pCurrentVertex
        pCurrentNeighbor residuals).2 0).isZero = true) := by
  constructor
  · intro i hi
    rw [ResidualTV_component _ _ _ _ i hi]
    apply Double.isZero_mul_of_isZero _ _ hw
    rw [Double.isZero_sub_eq _ _ (href i hi) (hcur i hi)]
    exact Double.eq_of_eq_of_eq _ _ _ (href i hi) (hcur i hi) (href i hi)
      (Double.eq_self_of_not_isNaN _ (Double.isNaN_of_isFinite _ (href i hi))) (hedge i hi)
  · intro hlen
    rw [ResidualINEXTENT_component]
    apply Double.isZero_mul_of_isZero _ _ hw
    simp only []
    rw [Double.mul_self_eq_of_eq _ _ (hcur 0 (by decide)) (href 0 (by decide))
        (hedge 0 (by decide)),
      Double.mul_self_eq_of_eq _ _ (hcur 1 (by decide)) (href 1 (by decide))
        (hedge 1 (by decide)),
      Double.mul_self_eq_of_eq _ _ (hcur 2 (by decide)) (href 2 (by decide))
        (hedge 2 (by decide)),
      Double.sub_self_of_isFinite _ hlen]
    decide

/-- C4, amended, at a concrete input: weight 3, the reference edge
(1,2,3) - (0,1,1) and the current edge (5,6,7) - (4,5,5), both (1,1,2), of
length sqrt 6. -/
theorem ResidualTV_INEXTENT_zero_of_same_edge_witness :
    (∀ i, i < 3 → (((ResidualTV.mk (Double.ofInt 3)
      (vec3 1 (Double.ofInt 2) (Double.ofInt 3)) (vec3 0 1 1)).operator
      (vec3 (Double.ofInt 5) (Double.ofInt 6) (Double.ofInt 7))
      (vec3 (Double.ofInt 4) (Double.ofInt 5) (Double.ofInt 5)) (fun _ => 1)).2 i).isZero = true) ∧
    (((ResidualINEXTENT.mk (Double.ofInt 3)
      (vec3 1 (Double.ofInt 2) (Double.ofInt 3)) (vec3 0 1 1)).operator Double.sqrt
      (vec3 (Double.ofInt 5) (Double.ofInt 6) (Double.ofInt 7))
      (vec3 (Double.ofInt 4) (Double.ofInt 5) (Double.ofInt 5)) (fun _ => 1)).2 0).isZero = true :=
  have h := ResidualTV_INEXTENT_zero_of_same_edge (Double.ofInt 3) Double.sqrt
    (vec3 1 (Double.ofInt 2) (Double.ofInt 3)) (vec3 0 1 1)
    (vec3 (Double.ofInt 5) (Double.ofInt 6) (Double.ofInt 7))
    (vec3 (Double.ofInt 4) (Double.ofInt 5) (Double.ofInt 5)) (fun _ => 1)
    (by decide)
    (by intro i hi; interval_cases i <;> decide)
    (by intro i hi; interval_cases i <;> decide)
    (by intro i hi; interval_cases i <;> decide)
  ⟨h.1, h.2 (by decide)⟩

/-! ## Scaling the weights -/

/-- C11, as stated, fails under rounding and at overflow. With weight 1, both
neighbors (0,0,0), reference vertex (1,b,b) and current vertex (b,b,1), where
b = 1.5 * 2^-27, the two edges have the same exact length (the squared
lengths are the same sum in another order), yet the computed lengths are
1 + 2^-52 and 1 and the residual is 2^-52. With reference vertex (2^600,0,0)
and current vertex (0,2^600,0), of equal length 2^600, the residual is a
NaN. -/
theorem ResidualINEXTENT_length_difference_counterexample :
    ((Double.toRat 1 - Double.toRat 0) ^ 2 +
        ((Double.fin false (3 * 2 ^ 51) (-79)).toRat - Double.toRat 0) ^ 2 +
        ((Double.fin false (3 * 2 ^ 51) (-79)).toRat - Double.toRat 0) ^ 2 =
      ((Double.fin false (3 * 2 ^ 51) (-79)).toRat - Double.toRat 0) ^ 2 +
        ((Double.fin false (3 * 2 ^ 51) (-79)).toRat - Double.toRat 0) ^ 2 +
        (Double.toRat 1 - Double.toRat 0) ^ 2) ∧
    ((ResidualINEXTENT.mk (1 : Double)
        (vec3 1 (Double.fin false (3 * 2 ^ 51) (-79)) (Double.fin false (3 * 2 ^ 51) (-79)))
        (vec3 0 0 0)).operator Double.sqrt
        (vec3 (Double.fin false (3 * 2 ^ 51) (-79)) (Double.fin false (3 * 2 ^ 51) (-79)) 1)
        (vec3 0 0 0) (fun _ => 1)).2 0 = Double.fin false (2 ^ 52) (-104) ∧
    (((ResidualINEXTENT.mk (1 : Double)
        (vec3 1 (Double.fin false (3 * 2 ^ 51) (-79)) (Double.fin false (3 * 2 ^ 51) (-79)))
        (vec3 0 0 0)).operator Double.sqrt
        (vec3 (Double.fin false (3 * 2 ^ 51) (-79)) (Double.fin false (3 * 2 ^ 51) (-79)) 1)
        (vec3 0 0 0) (fun _ => 1)).2 0).isZero = false ∧
    (((ResidualINEXTENT.mk (1 : Double) (vec3 (Double.fin false (2 ^ 52) 548) 0 0)
        (vec3 0 0 0)).operator Double.sqrt
        (vec3 0 (Double.fin false (2 ^ 52) 548) 0) (vec3 0 0 0) (fun _ => 1)).2 0).isNaN = true := by
  refine ⟨by ring, by decide, by decide, by decide⟩

/-- C11, amended: for every weight `w` and all vertex positions,
`ResidualINEXTENT::operator()` writes the single residual
`w * (L_ref - L_cur)`, where `L_ref` and `L_cur` are the lengths as the code
computes them: the square root of the sum, taken from left to right, of the
squared component differences (for every scalar type and square-root
function). In double arithmetic the residual is 0 whenever the weight is
finite and the two computed lengths are finite and equal, as for the reference
edge (1,0,0) and the current edge (0,1,0), which differ in direction. -/
theorem ResidualINEXTENT_length_difference {S : Type} [Add S] [Sub S] [Mul S] (sqrtS : S → S)
    (wS : S) (pVertexS pNeighborS pCurrentVertexS pCurrentNeighborS residualsS : Ptr S)
    (sqrt : Double → Double) (w : Double)
    (pVertex pNeighbor pCurrentVertex pCurrentNeighbor residuals : Ptr Double) :
    ((ResidualINEXTENT.mk wS pVertexS pNeighborS).operator sqrtS pCurrentVertexS
      pCurrentNeighborS residualsS).2 0 =
      wS * (sqrtS ((pVertexS 0 - pNeighborS 0) * (pVertexS 0 - pNeighborS 0) +
            (pVertexS 1 - pNeighborS 1) * (pVertexS 1 - pNeighborS 1) +
            (pVertexS 2 - pNeighborS 2) * (pVertexS 2 - pNeighborS 2)) -
          sqrtS ((pCurrentVertexS 0 - pCurrentNeighborS 0) *
              (pCurrentVertexS 0 - pCurrentNeighborS 0) +
            (pCurrentVertexS 1 - pCurrentNeighborS 1) *
              (pCurrentVertexS 1 - pCurrentNeighborS 1) +
            (pCurrentVertexS 2 - pCurrentNeighborS 2) *
              (pCurrentVertexS 2 - pCurrentNeighborS 2))) ∧
    (w.isFinite = true →
      (sqrt ((pVertex 0 - pNeighbor 0) * (pVertex 0 - pNeighbor 0) +
        (pVertex 1 - pNeighbor 1) * (pVertex 1 - pNeighbor 1) +
        (pVertex 2 - pNeighbor 2) * (pVertex 2 - pNeighbor 2))).isFinite = true →
      (sqrt ((pCurrentVertex 0 - pCurrentNeighbor 0) * (pCurrentVertex 0 - pCurrentNeighbor 0) +
        (pCurrentVertex 1 - pCurrentNeighbor 1) * (pCurrentVertex 1 - pCurrentNeighbor 1) +
        (pCurrentVertex 2 - pCurrentNeighbor 2) * (pCurrentVertex 2 - pCurrentNeighbor 2))).isFinite
          = true →
      Double.eq
        (sqrt ((pVertex 0 - pNeighbor 0) * (pVertex 0 - pNeighbor 0) +
          (pVertex 1 - pNeighbor 1) * (pVertex 1 - pNeighbor 1) +
          (pVertex 2 - pNeighbor 2) * (pVertex 2 - pNeighbor 2)))
        (sqrt ((pCurrentVertex 0 - pCurrentNeighbor 0) * (pCurrentVertex 0 - pCurrentNeighbor 0) +
          (pCurrentVertex 1 - pCurrentNeighbor 1) * (pCurrentVertex 1 - pCurrentNeighbor 1) +
          (pCurrentVertex 2 - pCurrentNeighbor 2) * (pCurrentVertex 2 - pCurrentNeighbor 2)))
        = true →
      (((ResidualINEXTENT.mk w pVertex pNeighbor).operator sqrt pCurrentVertex
        pCurrentNeighbor residuals).2 0).isZero = true) ∧
    (w.isFinite = true →
      (((ResidualINEXTENT.mk w (vec3 1 0 0) (vec3 0 0 0)).operator Double.sqrt (vec3 0 1 0)
        (vec3 0 0 0) residuals).2 0).isZero = true) := by
  have hzero : ∀ (sq : Double → Double) (V N v n : Ptr Double), w.isFinite = true →
      (sq ((V 0 - N 0) * (V 0 - N 0) + (V 1 - N 1) * (V 1 - N 1) +
        (V 2 - N 2) * (V 2 - N 2))).isFinite = true →
      (sq ((v 0 - n 0) * (v 0 - n 0) + (v 1 - n 1) * (v 1 - n 1) +
        (v 2 - n 2) * (v 2 - n 2))).isFinite = true →
      Double.eq
        (sq ((V 0 - N 0) * (V 0 - N 0) + (V 1 - N 1) * (V 1 - N 1) +
          (V 2 - N 2) * (V 2 - N 2)))
        (sq ((v 0 - n 0) * (v 0 - n 0) + (v 1 - n 1) * (v 1 - n 1) +
          (v 2 - n 2) * (v 2 - n 2))) = true →
      (((ResidualINEXTENT.mk w V N).operator sq v n residuals).2 0).isZero = true := by
    intro sq V N v n hw h1 h2 heq
    rw [ResidualINEXTENT_component]
    apply Double.isZero_mul_of_isZero _ _ hw
    rw [Double.isZero_sub_eq _ _ h1 h2]
    exact heq
  refine ⟨ResidualINEXTENT_component _ _ _ _ _, hzero sqrt _ _ _ _, ?_⟩
  intro hw
  exact hzero Double.sqrt _ _ _ _ hw (by decide) (by decide) (by decide)

/-- C15, as stated, fails at overflow and for a non-finite weight. With weight
0.0, a = (2^1023,0,0) and b = (-2^1023,0,0), all finite, the first component
is a NaN for either order of a and b, and a NaN does not equal its negation.
With weight +inf and a = b = (1,2,3) the first component is a NaN, not 0. -/
theorem ResidualRotTV_counterexample :
    (Double.fin false (2 ^ 52) 971).isFinite = true ∧
    (Double.fin true (2 ^ 52) 971).isFinite = true ∧
    Double.eq
      (((ResidualRotTV.mk (0 : Double)).operator (vec3 (Double.fin true (2 ^ 52) 971) 0 0)
        (vec3 (Double.fin false (2 ^ 52) 971) 0 0) (fun _ => 1)).2 0)
      (-((ResidualRotTV.mk (0 : Double)).operator (vec3 (Double.fin false (2 ^ 52) 971) 0 0)
        (vec3 (Double.fin true (2 ^ 52) 971) 0 0) (fun _ => 1)).2 0) = false ∧
    (((ResidualRotTV.mk (Double.inf false)).operator
      (vec3 1 (Double.ofInt 2) (Double.ofInt 3)) (vec3 1 (Double.ofInt 2) (Double.ofInt 3))
      (fun _ => 1)).2 0).isNaN = true := by
  decide

/-- C15, amended: for every weight `w` and all rotation parameter triples `a`
and `b`, `ResidualRotTV::operator()` writes `w * (a[i] - b[i])` for `i` in
0..2, with no reference offset (for every scalar type). In double arithmetic
the residual is (0,0,0) whenever `a = b` with finite components and the
weight is finite, and swapping `a` and `b` negates every component that is
not a NaN. -/
theorem ResidualRotTV_formula_zero_and_swap {S : Type} [Sub S] [Mul S] (wS : S)
    (aS bS residualsS : Ptr S) (w : Double) (a b residuals : Ptr Double) :
    (∀ i, i < 3 → ((ResidualRotTV.mk wS).operator aS bS residualsS).2 i =
      wS * (aS i - bS i)) ∧
    (w.isFinite = true → ∀ i, i < 3 → (a i).isFinite = true → (b i).isFinite = true →
      Double.eq (a i) (b i) = true →
      (((ResidualRotTV.mk w).operator a b residuals).2 i).isZero = true) ∧
    (∀ i, i < 3 → (((ResidualRotTV.mk w).operator a b residuals).2 i).isNaN = false →
      Double.eq (((ResidualRotTV.mk w).operator b a residuals).2 i)
        (-((ResidualRotTV.mk w).operator a b residuals).2 i) = true) := by
  refine ⟨?_, ?_, ?_⟩
  · intro i hi
    rw [ResidualRotTV_component _ _ _ _ i hi]
  · intro hw i hi ha hb hab
    rw [ResidualRotTV_component _ _ _ _ i hi]
    apply Double.isZero_mul_of_isZero _ _ hw
    rw [Double.isZero_sub_eq _ _ ha hb]
    exact hab
  · intro i hi hnan
    rw [ResidualRotTV_component _ _ _ _ i hi] at hnan ⊢
    rw [ResidualRotTV_component _ _ _ _ i hi]
    simp only [] at hnan ⊢
    rcases Double.sub_swap (a i) (b i) with hswap | ⟨h1, h2⟩
    · rw [hswap, Double.mul_neg_eq]
      apply Double.eq_self_of_not_isNaN
      show (Double.neg (w * (a i - b i))).isNaN = false
      rw [Double.isNaN_neg]
      exact hnan
    · have hwfin : ∃ s m e, w = Double.fin s m e := by
        cases hw : w with
        | fin s m e => exact ⟨s, m, e, rfl⟩
        | inf s =>
          exfalso
          rw [hw] at hnan
          cases hd : a i - b i with
          | fin t n f =>
            rw [hd] at hnan h1
            simp only [Double.isZero, decide_eq_true_eq] at h1
            subst h1
            change (Double.mul (Double.inf s) (Double.fin t 0 f)).isNaN = false at hnan
            simp [Double.mul, Double.isNaN] at hnan
          | inf t => rw [hd] at h1; simp [Double.isZero] at h1
          | nan => rw [hd] at h1; simp [Double.isZero] at h1
        | nan =>
          exfalso
          rw [hw] at hnan
          change (Double.mul Double.nan (a i - b i)).isNaN = false at hnan
          simp [Double.mul, Double.isNaN] at hnan
      obtain ⟨s, m, e, rfl⟩ := hwfin
      apply Double.eq_of_isZero
      · exact Double.isZero_mul_fin_of_isZero _ _ _ _ h2
      · show (Double.neg (Double.fin s m e * (a i - b i))).isZero = true
        rw [Double.isZero_neg]
        exact Double.isZero_mul_fin_of_isZero _ _ _ _ h1

/-! ## Edge regularizers under a common translation of the current mesh -/

/-- C17, as stated, fails under rounding: with weight 1, reference vertex and
neighbor (0,0,0), current vertex (1,0,0), current neighbor (0,0,0) and the
offset t = (2^53,0,0), the sum 1 + 2^53 rounds to 2^53, so the translated
current edge computes to 0: the first residual component of `ResidualTV` is 0
on the translated pair and -1 on the original pair. -/
theorem edge_regularizers_translation_counterexample :
    ((ResidualTV.mk (1 : Double) (vec3 0 0 0) (vec3 0 0 0)).operator
      (fun i => (vec3 (1 : Double) 0 0) i + (vec3 (Double.fin false (2 ^ 52) 1) 0 0) i)
      (fun i => (vec3 (0 : Double) 0 0) i + (vec3 (Double.fin false (2 ^ 52) 1) 0 0) i)
      (fun _ => 1)).2 0 = 0 ∧
    ((ResidualTV.mk (1 : Double) (vec3 0 0 0) (vec3 0 0 0)).operator
      (vec3 1 0 0) (vec3 0 0 0) (fun _ => 1)).2 0 = -1 ∧
    Double.eq
      (((ResidualTV.mk (1 : Double) (vec3 0 0 0) (vec3 0 0 0)).operator
        (fun i => (vec3 (1 : Double) 0 0) i + (vec3 (Double.fin false (2 ^ 52) 1) 0 0) i)
        (fun i => (vec3 (0 : Double) 0 0) i + (vec3 (Double.fin false (2 ^ 52) 1) 0 0) i)
        (fun _ => 1)).2 0)
      (((ResidualTV.mk (1 : Double) (vec3 0 0 0) (vec3 0 0 0)).operator
        (vec3 1 0 0) (vec3 0 0 0) (fun _ => 1)).2 0) = false := by
  decide

/-- C17, amended: `ResidualTV`, `ResidualINEXTENT` and `ResidualARAP` read the
current pair only through the computed differences
`current vertex[i] - current neighbor[i]`, `i` in 0..2: for every offset
vector `t`, weight, reference pair and local rotation, evaluating them on
(current vertex + t, current neighbor + t) returns what they return on
(current vertex, current neighbor) whenever each translated difference
`(v[i] + t[i]) - (n[i] + t[i])` computes to `v[i] - n[i]`, as it does in exact
arithmetic. This holds for every scalar type, square-root function and
rotation primitive. -/
theorem edge_regularizers_translation_invariant {S : Type} [Add S] [Sub S] [Mul S] (w : S)
    (sqrt : S → S) (rotate : Ptr S → Ptr S → Ptr S)
    (pVertex pNeighbor pCurrentVertex pCurrentNeighbor pRotVertex t residuals : Ptr S)
    (hdiff : ∀ i, i < 3 → (pCurrentVertex i + t i) - (pCurrentNeighbor i + t i) =
      pCurrentVertex i - pCurrentNeighbor i) :
    (ResidualTV.mk w pVertex pNeighbor).operator (fun i => pCurrentVertex i + t i)
        (fun i => pCurrentNeighbor i + t i) residuals =
      (ResidualTV.mk w pVertex pNeighbor).operator pCurrentVertex pCurrentNeighbor residuals ∧
    (ResidualINEXTENT.mk w pVertex pNeighbor).operator sqrt (fun i => pCurrentVertex i + t i)
        (fun i => pCurrentNeighbor i + t i) residuals =
      (ResidualINEXTENT.mk w pVertex pNeighbor).operator sqrt pCurrentVertex pCurrentNeighbor
        residuals ∧
    (ResidualARAP.mk w pVertex pNeighbor).operator rotate (fun i => pCurrentVertex i + t i)
        (fun i => pCurrentNeighbor i + t i) pRotVertex residuals =
      (ResidualARAP.mk w pVertex pNeighbor).operator rotate pCurrentVertex pCurrentNeighbor
        pRotVertex residuals := by
  have h0 := hdiff 0 (by decide)
  have h1 := hdiff 1 (by decide)
  have h2 := hdiff 2 (by decide)
  refine ⟨?_, ?_, ?_⟩
  · simp only [ResidualTV.operator, forLoop, h0, h1, h2]
  · simp only [ResidualINEXTENT.operator, h0, h1, h2]
  · simp only [ResidualARAP.operator, h0, h1, h2]

/-- C17, amended, at a concrete input in double arithmetic: the current pair
(2,3,4), (1,1,1) translated by (1,1,1); every sum and difference is exact. -/
theorem edge_regularizers_translation_invariant_witness :
    (ResidualTV.mk (Double.ofInt 3) (vec3 1 (Double.ofInt 2) (Double.ofInt 3))
        (vec3 0 1 1)).operator
        (fun i => (vec3 (Double.ofInt 2) (Double.ofInt 3) (Double.ofInt 4)) i + (vec3 1 1 1) i)
        (fun i => (vec3 (1 : Double) 1 1) i + (vec3 1 1 1) i) (fun _ => 1) =
      (ResidualTV.mk (Double.ofInt 3) (vec3 1 (Double.ofInt 2) (Double.ofInt 3))
        (vec3 0 1 1)).operator
        (vec3 (Double.ofInt 2) (Double.ofInt 3) (Double.ofInt 4)) (vec3 1 1 1) (fun _ => 1) ∧
    (ResidualINEXTENT.mk (Double.ofInt 3) (vec3 1 (Double.ofInt 2) (Double.ofInt 3))
        (vec3 0 1 1)).operator Double.sqrt
        (fun i => (vec3 (Double.ofInt 2) (Double.ofInt 3) (Double.ofInt 4)) i + (vec3 1 1 1) i)
        (fun i => (vec3 (1 : Double) 1 1) i + (vec3 1 1 1) i) (fun _ => 1) =
      (ResidualINEXTENT.mk (Double.ofInt 3) (vec3 1 (Double.ofInt 2) (Double.ofInt 3))
        (vec3 0 1 1)).operator Double.sqrt
        (vec3 (Double.ofInt 2) (Double.ofInt 3) (Double.ofInt 4)) (vec3 1 1 1) (fun _ => 1) ∧
    (ResidualARAP.mk (Double.ofInt 3) (vec3 1 (Double.ofInt 2) (Double.ofInt 3))
        (vec3 0 1 1)).operator
        (AngleAxisRotatePoint ⟨Double.sqrt, fun _ => Double.nan, fun _ => Double.nan⟩)
        (fun i => (vec3 (Double.ofInt 2) (Double.ofInt 3) (Double.ofInt 4)) i + (vec3 1 1 1) i)
        (fun i => (vec3 (1 : Double) 1 1) i + (vec3 1 1 1) i) (vec3 0 0 0) (fun _ => 1) =
      (ResidualARAP.mk (Double.ofInt 3) (vec3 1 (Double.ofInt 2) (Double.ofInt 3))
        (vec3 0 1 1)).operator
        (AngleAxisRotatePoint ⟨Double.sqrt, fun _ => Double.nan, fun _ => Double.nan⟩)
        (vec3 (Double.ofInt 2) (Double.ofInt 3) (Double.ofInt 4)) (vec3 1 1 1) (vec3 0 0 0)
        (fun _ => 1) :=
  edge_regularizers_translation_invariant (Double.ofInt 3) Double.sqrt
    (AngleAxisRotatePoint ⟨Double.sqrt, fun _ => Double.nan, fun _ => Double.nan⟩)
    (vec3 1 (Double.ofInt 2) (Double.ofInt 3)) (vec3 0 1 1)
    (vec3 (Double.ofInt 2) (Double.ofInt 3) (Double.ofInt 4)) (vec3 1 1 1) (vec3 0 0 0)
    (vec3 1 1 1) (fun _ => 1) (by intro i hi; interval_cases i <;> decide)

end Pangaea
